import Mathlib

/-!
# LCD_I2C: a character LCD behind a PCF8574 I2C expander

A shallow embedding of `src/LCD_I2C.cpp`.  Every method of the C++ class is a
function on a `Machine`: the driver object together with the ordered log of
what the method did to the outside world (`Wire` transactions and delays).

`LCD_I2C.h` is not among the sources.  From it the code uses the member
`_output` with its fields `rs`, `rw`, `E`, `Led`, `data`, the members
`_address`, `_displayState`, `_entryState`, and the two packing methods
`GetHighData` / `GetLowData`.  The fields are modelled by the values the
source assigns to them; the two packing methods are a parameter (`Header`).

All methods but one are `void` and end by returning to the caller.  The one
that is not, `size_t write(uint8_t)`, has no `return` statement: control
reaches its closing brace, which C++ leaves undefined.  Its model ends in
`Outcome.fellOffEnd`, carrying the machine at that point.
-/

namespace LCD_I2C

/-- The mirrored expander latch `_output`: the five fields `LCD_I2C.cpp`
assigns (`rs`, `rw`, `E`, `Led` hold 0 or 1, `data` holds the whole byte being
sent). -/
structure OutputState where
  rs : Nat
  rw : Nat
  E : Nat
  Led : Nat
  data : Nat
deriving DecidableEq, Repr

/-- The two methods of `_output` that `LCD_I2C.cpp` calls and `LCD_I2C.h`
defines: each packs the latch into the byte put on the bus, `GetHighData` with
the high nibble of `data`, `GetLowData` with the low nibble. -/
structure Header where
  GetHighData : OutputState → Nat
  GetLowData : OutputState → Nat

/-- The data members of the class that `LCD_I2C.cpp` uses. -/
structure Driver where
  _address : Nat
  _output : OutputState
  _displayState : Nat
  _entryState : Nat
deriving DecidableEq, Repr

/-- What the driver does to the outside world.  `transmission a b` is one
`Wire.beginTransmission(a); Wire.write(b); Wire.endTransmission();`. -/
inductive Event where
  | Wire_begin
  | transmission (address : Nat) (byte : Nat)
  | delay (ms : Nat)
  | delayMicroseconds (us : Nat)
deriving DecidableEq, Repr

/-- The driver object and the log of events so far, oldest first. -/
structure Machine where
  drv : Driver
  log : List Event
deriving DecidableEq, Repr

/-- How control leaves the body of a method: by returning to the caller, or by
reaching the closing brace of a function that has to return a value and has no
`return` statement, after which C++ defines nothing.  Both carry the machine at
that point. -/
inductive Outcome where
  | returned (m : Machine)
  | fellOffEnd (m : Machine)
deriving DecidableEq, Repr

/-- The machine at the point where control left the body. -/
def Outcome.machine : Outcome → Machine
  | Outcome.returned m => m
  | Outcome.fellOffEnd m => m

/-- The machine handed back to the caller, when there is a return. -/
def Outcome.result : Outcome → Option Machine
  | Outcome.returned m => some m
  | Outcome.fellOffEnd _ => none

/-- Append one event to the log. -/
def emit (e : Event) (m : Machine) : Machine :=
  { m with log := m.log ++ [e] }

/-- An assignment to fields of `_output`. -/
def setOutput (f : OutputState → OutputState) (m : Machine) : Machine :=
  { m with drv := { m.drv with _output := f m.drv._output } }

/-- The bus transactions of a log, in order, as (address, byte) pairs. -/
def busWrites : List Event → List (Nat × Nat)
  | [] => []
  | Event.transmission a b :: rest => (a, b) :: busWrites rest
  | _ :: rest => busWrites rest

/-- Source method `LCD_I2C::I2C_Write` (lines 198-203). -/
def I2C_Write (output : Nat) (m : Machine) : Machine :=
  emit (Event.transmission m.drv._address output) m

/-- Source method `LCD_I2C::LCD_Write` (lines 205-230). -/
def LCD_Write (hw : Header) (output : Nat) (initialization : Bool) (m : Machine) : Machine :=
  let m := setOutput (fun o => { o with data := output }) m
  let m := setOutput (fun o => { o with E := 1 }) m
  let m := I2C_Write (hw.GetHighData m.drv._output) m
  let m := emit (Event.delayMicroseconds 1) m
  let m := setOutput (fun o => { o with E := 0 }) m
  let m := I2C_Write (hw.GetHighData m.drv._output) m
  if !initialization then
    let m := emit (Event.delayMicroseconds 37) m
    let m := setOutput (fun o => { o with E := 1 }) m
    let m := I2C_Write (hw.GetLowData m.drv._output) m
    let m := emit (Event.delayMicroseconds 1) m
    let m := setOutput (fun o => { o with E := 0 }) m
    I2C_Write (hw.GetLowData m.drv._output) m
  else
    m

/-- The events of sending the byte `b` from latch `o` to address `a`: the
enable pulse carrying the high nibble and, unless `half`, the 37 microsecond
gap and the enable pulse carrying the low nibble.  This is the protocol the
theorems compare `LCD_Write` with. -/
def nibblePulses (hw : Header) (a : Nat) (o : OutputState) (b : Nat) (half : Bool) : List Event :=
  [Event.transmission a (hw.GetHighData { o with data := b, E := 1 }),
   Event.delayMicroseconds 1,
   Event.transmission a (hw.GetHighData { o with data := b, E := 0 })] ++
  (if half then [] else
    [Event.delayMicroseconds 37,
     Event.transmission a (hw.GetLowData { o with data := b, E := 1 }),
     Event.delayMicroseconds 1,
     Event.transmission a (hw.GetLowData { o with data := b, E := 0 })])

/-- The 8-bit complement: what `~x` contributes to `_displayState &= ~x` and
`_entryState &= ~x`, whose left sides are `uint8_t`. -/
def compl8 (x : Nat) : Nat := 0xFF ^^^ x

/-- Source method `LCD_I2C::backlight` (lines 34-38). -/
def backlight (on_ : Bool) (m : Machine) : Machine :=
  let m := setOutput (fun o => { o with Led := if on_ then 1 else 0 }) m
  I2C_Write (0b00000000 ||| (m.drv._output.Led <<< 3)) m

/-- Source method `LCD_I2C::clear` (lines 40-47). -/
def clear (hw : Header) (m : Machine) : Machine :=
  let m := setOutput (fun o => { o with rs := 0 }) m
  let m := setOutput (fun o => { o with rw := 0 }) m
  let m := LCD_Write hw 0b00000001 false m
  emit (Event.delayMicroseconds 1600) m

/-- Source method `LCD_I2C::home` (lines 49-56). -/
def home (hw : Header) (m : Machine) : Machine :=
  let m := setOutput (fun o => { o with rs := 0 }) m
  let m := setOutput (fun o => { o with rw := 0 }) m
  let m := LCD_Write hw 0b00000010 false m
  emit (Event.delayMicroseconds 1600) m

/-- Source method `LCD_I2C::leftToRight` (lines 59-68). -/
def leftToRight (hw : Header) (m : Machine) : Machine :=
  let m := setOutput (fun o => { o with rs := 0 }) m
  let m := setOutput (fun o => { o with rw := 0 }) m
  let m := { m with drv := { m.drv with _entryState := m.drv._entryState ||| (1 <<< 1) } }
  let m := LCD_Write hw (0b00000100 ||| m.drv._entryState) false m
  emit (Event.delayMicroseconds 37) m

/-- Source method `LCD_I2C::rightToLeft` (lines 71-80). -/
def rightToLeft (hw : Header) (m : Machine) : Machine :=
  let m := setOutput (fun o => { o with rs := 0 }) m
  let m := setOutput (fun o => { o with rw := 0 }) m
  let m := { m with drv := { m.drv with _entryState := m.drv._entryState &&& compl8 (1 <<< 1) } }
  let m := LCD_Write hw (0b00000100 ||| m.drv._entryState) false m
  emit (Event.delayMicroseconds 37) m

/-- Source method `LCD_I2C::display` (lines 83-92). -/
def display (hw : Header) (m : Machine) : Machine :=
  let m := setOutput (fun o => { o with rs := 0 }) m
  let m := setOutput (fun o => { o with rw := 0 }) m
  let m := { m with drv := { m.drv with _displayState := m.drv._displayState ||| (1 <<< 2) } }
  let m := LCD_Write hw (0b00001000 ||| m.drv._displayState) false m
  emit (Event.delayMicroseconds 37) m

/-- Source method `LCD_I2C::noDisplay` (lines 95-104). -/
def noDisplay (hw : Header) (m : Machine) : Machine :=
  let m := setOutput (fun o => { o with rs := 0 }) m
  let m := setOutput (fun o => { o with rw := 0 }) m
  let m := { m with drv := { m.drv with _displayState := m.drv._displayState &&& compl8 (1 <<< 2) } }
  let m := LCD_Write hw (0b00001000 ||| m.drv._displayState) false m
  emit (Event.delayMicroseconds 37) m

/-- Source method `LCD_I2C::cursor` (lines 107-116). -/
def cursor (hw : Header) (m : Machine) : Machine :=
  let m := setOutput (fun o => { o with rs := 0 }) m
  let m := setOutput (fun o => { o with rw := 0 }) m
  let m := { m with drv := { m.drv with _displayState := m.drv._displayState ||| (1 <<< 1) } }
  let m := LCD_Write hw (0b00001000 ||| m.drv._displayState) false m
  emit (Event.delayMicroseconds 37) m

/-- Source method `LCD_I2C::noCursor` (lines 119-128). -/
def noCursor (hw : Header) (m : Machine) : Machine :=
  let m := setOutput (fun o => { o with rs := 0 }) m
  let m := setOutput (fun o => { o with rw := 0 }) m
  let m := { m with drv := { m.drv with _displayState := m.drv._displayState &&& compl8 (1 <<< 1) } }
  let m := LCD_Write hw (0b00001000 ||| m.drv._displayState) false m
  emit (Event.delayMicroseconds 37) m

/-- Source method `LCD_I2C::blink` (lines 131-140). -/
def blink (hw : Header) (m : Machine) : Machine :=
  let m := setOutput (fun o => { o with rs := 0 }) m
  let m := setOutput (fun o => { o with rw := 0 }) m
  let m := { m with drv := { m.drv with _displayState := m.drv._displayState ||| 1 } }
  let m := LCD_Write hw (0b00001000 ||| m.drv._displayState) false m
  emit (Event.delayMicroseconds 37) m

/-- Source method `LCD_I2C::noBlink` (lines 143-152). -/
def noBlink (hw : Header) (m : Machine) : Machine :=
  let m := setOutput (fun o => { o with rs := 0 }) m
  let m := setOutput (fun o => { o with rw := 0 }) m
  let m := { m with drv := { m.drv with _displayState := m.drv._displayState &&& compl8 1 } }
  let m := LCD_Write hw (0b00001000 ||| m.drv._displayState) false m
  emit (Event.delayMicroseconds 37) m

/-- Source method `LCD_I2C::setCursor` (lines 155-165).  `newAddress` is a `uint8_t`, so
`newAddress += col` wraps at 256. -/
def setCursor (hw : Header) (row col : Nat) (m : Machine) : Machine :=
  let m := setOutput (fun o => { o with rs := 0 }) m
  let m := setOutput (fun o => { o with rw := 0 }) m
  let newAddress : Nat := if row = 0 then 0x00 else 0x40
  let newAddress : Nat := (newAddress + col) % 256
  let m := LCD_Write hw (0b10000000 ||| newAddress) false m
  emit (Event.delayMicroseconds 37) m

/-- Source method `LCD_I2C::write` (lines 167-174).  Declared `size_t`, its body
is four statements and no `return`: after the 41 microsecond delay control
flows off the end of the function. -/
def write (hw : Header) (character : Nat) (m : Machine) : Outcome :=
  let m := setOutput (fun o => { o with rs := 1 }) m
  let m := setOutput (fun o => { o with rw := 0 }) m
  let m := LCD_Write hw character false m
  let m := emit (Event.delayMicroseconds 41) m
  Outcome.fellOffEnd m

/-- Source method `LCD_I2C::InitializeLCD` (lines 176-196). -/
def InitializeLCD (hw : Header) (m : Machine) : Machine :=
  let m := setOutput (fun o => { o with rs := 0 }) m
  let m := setOutput (fun o => { o with rw := 0 }) m
  let m := LCD_Write hw 0b00110000 true m
  let m := emit (Event.delayMicroseconds 4200) m
  let m := LCD_Write hw 0b00110000 true m
  let m := emit (Event.delayMicroseconds 150) m
  let m := LCD_Write hw 0b00110000 true m
  let m := emit (Event.delayMicroseconds 37) m
  let m := LCD_Write hw 0b00100000 true m
  let m := emit (Event.delayMicroseconds 37) m
  let m := LCD_Write hw 0b00101000 false m
  let m := emit (Event.delayMicroseconds 37) m
  let m := display hw m
  let m := clear hw m
  leftToRight hw m

/-- Source method `LCD_I2C::begin` (lines 23-32). -/
def begin (hw : Header) (beginWire : Bool) (m : Machine) : Machine :=
  let m := if beginWire then emit Event.Wire_begin m else m
  let m := I2C_Write 0b00000000 m
  let m := emit (Event.delay 50) m
  InitializeLCD hw m

/-- The public operations of the class, as values, so that sequences of calls
can be quantified over. -/
inductive Op where
  | begin (beginWire : Bool)
  | backlight (on_ : Bool)
  | clear
  | home
  | leftToRight
  | rightToLeft
  | display
  | noDisplay
  | cursor
  | noCursor
  | blink
  | noBlink
  | setCursor (row col : Nat)
  | write (character : Nat)
deriving DecidableEq, Repr

/-- Calling one public operation and following it to the point where control
leaves its body.  For `write` that point is the closing brace it falls off; a
history that goes on after a `write` goes on from the machine reached there. -/
def Op.exec (hw : Header) : Op → Machine → Machine
  | Op.begin beginWire => LCD_I2C.begin hw beginWire
  | Op.backlight on_ => LCD_I2C.backlight on_
  | Op.clear => LCD_I2C.clear hw
  | Op.home => LCD_I2C.home hw
  | Op.leftToRight => LCD_I2C.leftToRight hw
  | Op.rightToLeft => LCD_I2C.rightToLeft hw
  | Op.display => LCD_I2C.display hw
  | Op.noDisplay => LCD_I2C.noDisplay hw
  | Op.cursor => LCD_I2C.cursor hw
  | Op.noCursor => LCD_I2C.noCursor hw
  | Op.blink => LCD_I2C.blink hw
  | Op.noBlink => LCD_I2C.noBlink hw
  | Op.setCursor row col => LCD_I2C.setCursor hw row col
  | Op.write character => fun m => (LCD_I2C.write hw character m).machine

/-- Calling a sequence of public operations, first to last. -/
def run (hw : Header) : List Op → Machine → Machine
  | [], m => m
  | op :: rest, m => run hw rest (op.exec hw m)

/-- The six operations that send a display-control command. -/
inductive DisplayToggle where
  | display
  | noDisplay
  | cursor
  | noCursor
  | blink
  | noBlink
deriving DecidableEq, Repr

/-- A display-control toggle as a public operation. -/
def DisplayToggle.toOp : DisplayToggle → Op
  | DisplayToggle.display => Op.display
  | DisplayToggle.noDisplay => Op.noDisplay
  | DisplayToggle.cursor => Op.cursor
  | DisplayToggle.noCursor => Op.noCursor
  | DisplayToggle.blink => Op.blink
  | DisplayToggle.noBlink => Op.noBlink

/-- The direction call selected by a flag: `leftToRight` for `true`,
`rightToLeft` for `false`. -/
def directionOp (ltr : Bool) : Op :=
  if ltr then Op.leftToRight else Op.rightToLeft

/-- The value a call gives the display flag, when it sets that flag.  `begin`
counts: its `InitializeLCD` ends by calling `display()`. -/
def Op.setsDisplay : Op → Option Bool
  | Op.display => some true
  | Op.noDisplay => some false
  | Op.begin _ => some true
  | _ => none

/-- The value a call gives the cursor flag, when it sets that flag. -/
def Op.setsCursor : Op → Option Bool
  | Op.cursor => some true
  | Op.noCursor => some false
  | _ => none

/-- The value a call gives the blink flag, when it sets that flag. -/
def Op.setsBlink : Op → Option Bool
  | Op.blink => some true
  | Op.noBlink => some false
  | _ => none

/-- The value a call gives the direction flag, when it sets that flag.
`begin` counts: its `InitializeLCD` ends by calling `leftToRight()`. -/
def Op.setsDirection : Op → Option Bool
  | Op.leftToRight => some true
  | Op.rightToLeft => some false
  | Op.begin _ => some true
  | _ => none

/-- The value set by the most recent call of a history that sets the flag
described by `f`; `init` when no call of the history sets it. -/
def lastSet (f : Op → Option Bool) (init : Bool) : List Op → Bool
  | [] => init
  | op :: rest => lastSet f ((f op).getD init) rest

/-- Modelled from the spec: the packing methods of `OutputState`, which
`LCD_I2C.h` (not among the sources) defines.  Pin mapping of section 6 of the
spec: bits 0-3 the data nibble, bit 4 register-select, bit 5 read/write, bit 6
enable strobe, bit 7 backlight enable.  Only used as a concrete instance of
`Header`; the general theorems hold for every packing. -/
def specHeader : Header where
  GetHighData o :=
    o.data / 16 % 16 + 16 * (o.rs % 2) + 32 * (o.rw % 2) + 64 * (o.E % 2) + 128 * (o.Led % 2)
  GetLowData o :=
    o.data % 16 + 16 * (o.rs % 2) + 32 * (o.rw % 2) + 64 * (o.E % 2) + 128 * (o.Led % 2)

/-- Modelled from the spec: the constructor, which `LCD_I2C.h` (not among the
sources) defines.  The address given at construction is stored; the latch and
both flag bytes start at zero; nothing has been done to the outside world. -/
def construct (address : Nat) : Machine :=
  { drv := { _address := address,
             _output := { rs := 0, rw := 0, E := 0, Led := 0, data := 0 },
             _displayState := 0,
             _entryState := 0 },
    log := [] }

/-- The state at the end of the body of `write('A')` on a driver at address
0x27 whose backlight is off: register-select set, the data field holding 0x41. -/
def afterWriteA : Machine :=
  { drv := { _address := 0x27,
             _output := { rs := 1, rw := 0, E := 0, Led := 0, data := 0x41 },
             _displayState := 0,
             _entryState := 0 },
    log := [] }

/-- The shape shared by every public operation that sends a byte to the
controller: assign `rs` and clear `rw`, `LCD_Write` the byte in full-byte mode,
then delay.  The theorems show each such operation to be an instance. -/
def sendByte (hw : Header) (rsValue byte us : Nat) (m : Machine) : Machine :=
  emit (Event.delayMicroseconds us)
    (LCD_Write hw byte false (setOutput (fun o => { o with rs := rsValue, rw := 0 }) m))

/-- Replace the display-control flags. -/
def withDisplayState (v : Nat) (m : Machine) : Machine :=
  { m with drv := { m.drv with _displayState := v } }

/-- Replace the entry-mode flags. -/
def withEntryState (v : Nat) (m : Machine) : Machine :=
  { m with drv := { m.drv with _entryState := v } }

/-- Every bus transaction logged so far went to the stored address. -/
def Addressed (m : Machine) : Prop :=
  ∀ p ∈ busWrites m.log, p.1 = m.drv._address

/-- The twelve public operations that send one byte to the controller: every
public operation other than `begin` and `backlight`. -/
inductive CommandOp where
  | clear
  | home
  | leftToRight
  | rightToLeft
  | display
  | noDisplay
  | cursor
  | noCursor
  | blink
  | noBlink
  | setCursor (row col : Nat)
  | write (character : Nat)
deriving DecidableEq, Repr

/-- A controller operation as a public operation. -/
def CommandOp.toOp : CommandOp → Op
  | CommandOp.clear => Op.clear
  | CommandOp.home => Op.home
  | CommandOp.leftToRight => Op.leftToRight
  | CommandOp.rightToLeft => Op.rightToLeft
  | CommandOp.display => Op.display
  | CommandOp.noDisplay => Op.noDisplay
  | CommandOp.cursor => Op.cursor
  | CommandOp.noCursor => Op.noCursor
  | CommandOp.blink => Op.blink
  | CommandOp.noBlink => Op.noBlink
  | CommandOp.setCursor row col => Op.setCursor row col
  | CommandOp.write character => Op.write character

/-- From `m` to `m'` the log only grew, and every bus transaction added
satisfies `Q`. -/
def Emits (Q : Nat × Nat → Prop) (m m' : Machine) : Prop :=
  ∃ ev, m'.log = m.log ++ ev ∧ ∀ p ∈ busWrites ev, Q p

/-- The bus transaction `p` goes to address `a` and its byte is one of the two
packings of a latch with `rw` clear and `Led` equal to `led`. -/
def PackedFor (hw : Header) (a led : Nat) (p : Nat × Nat) : Prop :=
  p.1 = a ∧ ∃ o : OutputState,
    o.rw = 0 ∧ o.Led = led ∧ (p.2 = hw.GetHighData o ∨ p.2 = hw.GetLowData o)

/-- The bus transaction `p` goes to address `a` and its byte either has no bit
set other than bit 3 (the raw bytes of `begin` and `backlight`) or is one of
the two packings of a latch with `rw` clear. -/
def WriteOnly (hw : Header) (a : Nat) (p : Nat × Nat) : Prop :=
  p.1 = a ∧
    ((∀ i : Nat, i ≠ 3 → Nat.testBit p.2 i = false) ∨
      ∃ o : OutputState, o.rw = 0 ∧ (p.2 = hw.GetHighData o ∨ p.2 = hw.GetLowData o))

/-- What `LCD_Write` appends to the log. -/
theorem LCD_Write_log (hw : Header) (b : Nat) (half : Bool) (m : Machine) :
    (LCD_Write hw b half m).log =
      m.log ++ nibblePulses hw m.drv._address m.drv._output b half := by
  cases half <;> simp [LCD_Write, nibblePulses, I2C_Write, emit, setOutput]

/-- The driver object after `LCD_Write`. -/
theorem LCD_Write_drv (hw : Header) (b : Nat) (half : Bool) (m : Machine) :
    (LCD_Write hw b half m).drv =
      { m.drv with _output := { m.drv._output with data := b, E := 0 } } := by
  cases half <;> simp [LCD_Write, I2C_Write, emit, setOutput]


/-- What `sendByte` appends to the log. -/
theorem sendByte_log (hw : Header) (r b us : Nat) (m : Machine) :
    (sendByte hw r b us m).log =
      m.log ++ nibblePulses hw m.drv._address { m.drv._output with rs := r, rw := 0 } b false ++
        [Event.delayMicroseconds us] := by
  simp [sendByte, LCD_Write_log, emit, setOutput]

/-- The driver object after `sendByte`. -/
theorem sendByte_drv (hw : Header) (r b us : Nat) (m : Machine) :
    (sendByte hw r b us m).drv =
      { m.drv with _output :=
          { rs := r, rw := 0, E := 0, Led := m.drv._output.Led, data := b } } := by
  simp [sendByte, LCD_Write_drv, emit, setOutput]

theorem clear_eq (hw : Header) (m : Machine) :
    clear hw m = sendByte hw 0 0x01 1600 m := rfl

theorem home_eq (hw : Header) (m : Machine) :
    home hw m = sendByte hw 0 0x02 1600 m := rfl

theorem leftToRight_eq (hw : Header) (m : Machine) :
    leftToRight hw m =
      sendByte hw 0 (0x04 ||| (m.drv._entryState ||| 2)) 37
        (withEntryState (m.drv._entryState ||| 2) m) := rfl

theorem rightToLeft_eq (hw : Header) (m : Machine) :
    rightToLeft hw m =
      sendByte hw 0 (0x04 ||| (m.drv._entryState &&& compl8 2)) 37
        (withEntryState (m.drv._entryState &&& compl8 2) m) := rfl

theorem display_eq (hw : Header) (m : Machine) :
    display hw m =
      sendByte hw 0 (0x08 ||| (m.drv._displayState ||| 4)) 37
        (withDisplayState (m.drv._displayState ||| 4) m) := rfl

theorem noDisplay_eq (hw : Header) (m : Machine) :
    noDisplay hw m =
      sendByte hw 0 (0x08 ||| (m.drv._displayState &&& compl8 4)) 37
        (withDisplayState (m.drv._displayState &&& compl8 4) m) := rfl

theorem cursor_eq (hw : Header) (m : Machine) :
    cursor hw m =
      sendByte hw 0 (0x08 ||| (m.drv._displayState ||| 2)) 37
        (withDisplayState (m.drv._displayState ||| 2) m) := rfl

theorem noCursor_eq (hw : Header) (m : Machine) :
    noCursor hw m =
      sendByte hw 0 (0x08 ||| (m.drv._displayState &&& compl8 2)) 37
        (withDisplayState (m.drv._displayState &&& compl8 2) m) := rfl

theorem blink_eq (hw : Header) (m : Machine) :
    blink hw m =
      sendByte hw 0 (0x08 ||| (m.drv._displayState ||| 1)) 37
        (withDisplayState (m.drv._displayState ||| 1) m) := rfl

theorem noBlink_eq (hw : Header) (m : Machine) :
    noBlink hw m =
      sendByte hw 0 (0x08 ||| (m.drv._displayState &&& compl8 1)) 37
        (withDisplayState (m.drv._displayState &&& compl8 1) m) := rfl

theorem setCursor_eq (hw : Header) (row col : Nat) (m : Machine) :
    setCursor hw row col m =
      sendByte hw 0 (0x80 ||| (((if row = 0 then 0x00 else 0x40) + col) % 256)) 37 m := rfl

/-- The method `write` runs the shape `sendByte` and then falls off its end. -/
theorem write_outcome (hw : Header) (character : Nat) (m : Machine) :
    write hw character m = Outcome.fellOffEnd (sendByte hw 1 character 41 m) := rfl

theorem write_eq (hw : Header) (character : Nat) (m : Machine) :
    (write hw character m).machine = sendByte hw 1 character 41 m := rfl

/-- The function `busWrites` distributes over concatenation of logs. -/
theorem busWrites_append (l₁ l₂ : List Event) :
    busWrites (l₁ ++ l₂) = busWrites l₁ ++ busWrites l₂ := by
  induction l₁ with
  | nil => rfl
  | cons e rest ih => cases e <;> simp [busWrites, ih]

/-- The bus transactions among the events of `nibblePulses`. -/
theorem busWrites_nibblePulses (hw : Header) (a : Nat) (o : OutputState) (b : Nat) (half : Bool) :
    busWrites (nibblePulses hw a o b half) =
      [(a, hw.GetHighData { o with data := b, E := 1 }),
       (a, hw.GetHighData { o with data := b, E := 0 })] ++
      (if half then [] else
        [(a, hw.GetLowData { o with data := b, E := 1 }),
         (a, hw.GetLowData { o with data := b, E := 0 })]) := by
  cases half <;> simp [nibblePulses, busWrites]

/-- Appending events that only address the stored address keeps `Addressed`. -/
theorem Addressed.extend {m m' : Machine} (ev : List Event) (h : Addressed m)
    (ha : m'.drv._address = m.drv._address) (hl : m'.log = m.log ++ ev)
    (he : ∀ p ∈ busWrites ev, p.1 = m.drv._address) : Addressed m' := by
  intro p hp
  rw [hl, busWrites_append, List.mem_append] at hp
  rw [ha]
  rcases hp with hp | hp
  · exact h p hp
  · exact he p hp

/-- The shape `sendByte` never changes the stored address, sends only to it. -/
theorem sendByte_addressed (hw : Header) (r b us : Nat) (m : Machine) (h : Addressed m) :
    Addressed (sendByte hw r b us m) := by
  refine h.extend _ (by rw [sendByte_drv]) (by rw [sendByte_log, List.append_assoc]) ?_
  intro p hp
  simp [busWrites_append, busWrites_nibblePulses, busWrites] at hp
  rcases hp with hp | hp | hp | hp <;> simp [hp]

/-- The primitive `LCD_Write` never changes the stored address, sends only to it. -/
theorem LCD_Write_addressed (hw : Header) (b : Nat) (half : Bool) (m : Machine)
    (h : Addressed m) : Addressed (LCD_Write hw b half m) := by
  refine h.extend _ (by rw [LCD_Write_drv]) (LCD_Write_log hw b half m) ?_
  intro p hp
  cases half <;> simp [busWrites_nibblePulses] at hp
  · rcases hp with hp | hp | hp | hp <;> simp [hp]
  · rcases hp with hp | hp <;> simp [hp]

/-- A delay keeps `Addressed`. -/
theorem delayMicroseconds_addressed (us : Nat) (m : Machine) (h : Addressed m) :
    Addressed (emit (Event.delayMicroseconds us) m) :=
  h.extend [Event.delayMicroseconds us] rfl rfl (by simp [busWrites])

/-- The driver object after `begin`. -/
theorem begin_drv (hw : Header) (beginWire : Bool) (m : Machine) :
    (begin hw beginWire m).drv =
      { m.drv with
        _output := { rs := 0, rw := 0, E := 0, Led := m.drv._output.Led,
                     data := 0x04 ||| (m.drv._entryState ||| 2) },
        _displayState := m.drv._displayState ||| 4,
        _entryState := m.drv._entryState ||| 2 } := by
  cases beginWire <;>
    simp [begin, InitializeLCD, display_eq, clear_eq, leftToRight_eq, sendByte_drv,
      withDisplayState, withEntryState, I2C_Write, LCD_Write_drv, emit, setOutput]

/-- The method `InitializeLCD` as a composition of calls, innermost first. -/
theorem InitializeLCD_eq (hw : Header) (m : Machine) :
    InitializeLCD hw m =
      leftToRight hw (clear hw (display hw
        (emit (Event.delayMicroseconds 37) (LCD_Write hw 0x28 false
        (emit (Event.delayMicroseconds 37) (LCD_Write hw 0x20 true
        (emit (Event.delayMicroseconds 37) (LCD_Write hw 0x30 true
        (emit (Event.delayMicroseconds 150) (LCD_Write hw 0x30 true
        (emit (Event.delayMicroseconds 4200) (LCD_Write hw 0x30 true
        (setOutput (fun o => { o with rw := 0 })
        (setOutput (fun o => { o with rs := 0 }) m)))))))))))))) := rfl

/-- The method `begin` as a composition of calls, innermost first. -/
theorem begin_eq (hw : Header) (beginWire : Bool) (m : Machine) :
    begin hw beginWire m =
      InitializeLCD hw (emit (Event.delay 50) (I2C_Write 0
        (if beginWire then emit Event.Wire_begin m else m))) := rfl

/-- An assignment to the latch keeps `Addressed`. -/
theorem setOutput_addressed (f : OutputState → OutputState) (m : Machine) (h : Addressed m) :
    Addressed (setOutput f m) :=
  h.extend [] rfl (by simp [setOutput]) (by simp [busWrites])

/-- Replacing the display-control flags keeps `Addressed`. -/
theorem withDisplayState_addressed (v : Nat) (m : Machine) (h : Addressed m) :
    Addressed (withDisplayState v m) :=
  h.extend [] rfl (by simp [withDisplayState]) (by simp [busWrites])

/-- Replacing the entry-mode flags keeps `Addressed`. -/
theorem withEntryState_addressed (v : Nat) (m : Machine) (h : Addressed m) :
    Addressed (withEntryState v m) :=
  h.extend [] rfl (by simp [withEntryState]) (by simp [busWrites])

theorem clear_addressed (hw : Header) (m : Machine) (h : Addressed m) :
    Addressed (clear hw m) := by
  rw [clear_eq]; exact sendByte_addressed _ _ _ _ _ h

theorem home_addressed (hw : Header) (m : Machine) (h : Addressed m) :
    Addressed (home hw m) := by
  rw [home_eq]; exact sendByte_addressed _ _ _ _ _ h

theorem leftToRight_addressed (hw : Header) (m : Machine) (h : Addressed m) :
    Addressed (leftToRight hw m) := by
  rw [leftToRight_eq]; exact sendByte_addressed _ _ _ _ _ (withEntryState_addressed _ _ h)

theorem rightToLeft_addressed (hw : Header) (m : Machine) (h : Addressed m) :
    Addressed (rightToLeft hw m) := by
  rw [rightToLeft_eq]; exact sendByte_addressed _ _ _ _ _ (withEntryState_addressed _ _ h)

theorem display_addressed (hw : Header) (m : Machine) (h : Addressed m) :
    Addressed (display hw m) := by
  rw [display_eq]; exact sendByte_addressed _ _ _ _ _ (withDisplayState_addressed _ _ h)

theorem noDisplay_addressed (hw : Header) (m : Machine) (h : Addressed m) :
    Addressed (noDisplay hw m) := by
  rw [noDisplay_eq]; exact sendByte_addressed _ _ _ _ _ (withDisplayState_addressed _ _ h)

theorem cursor_addressed (hw : Header) (m : Machine) (h : Addressed m) :
    Addressed (cursor hw m) := by
  rw [cursor_eq]; exact sendByte_addressed _ _ _ _ _ (withDisplayState_addressed _ _ h)

theorem noCursor_addressed (hw : Header) (m : Machine) (h : Addressed m) :
    Addressed (noCursor hw m) := by
  rw [noCursor_eq]; exact sendByte_addressed _ _ _ _ _ (withDisplayState_addressed _ _ h)

theorem blink_addressed (hw : Header) (m : Machine) (h : Addressed m) :
    Addressed (blink hw m) := by
  rw [blink_eq]; exact sendByte_addressed _ _ _ _ _ (withDisplayState_addressed _ _ h)

theorem noBlink_addressed (hw : Header) (m : Machine) (h : Addressed m) :
    Addressed (noBlink hw m) := by
  rw [noBlink_eq]; exact sendByte_addressed _ _ _ _ _ (withDisplayState_addressed _ _ h)

theorem setCursor_addressed (hw : Header) (row col : Nat) (m : Machine) (h : Addressed m) :
    Addressed (setCursor hw row col m) := by
  rw [setCursor_eq]; exact sendByte_addressed _ _ _ _ _ h

theorem write_addressed (hw : Header) (c : Nat) (m : Machine) (h : Addressed m) :
    Addressed (write hw c m).machine := by
  rw [write_eq]; exact sendByte_addressed _ _ _ _ _ h

theorem backlight_addressed (on_ : Bool) (m : Machine) (h : Addressed m) :
    Addressed (backlight on_ m) :=
  h.extend [Event.transmission m.drv._address (0 ||| ((if on_ then 1 else 0) <<< 3))]
    rfl rfl (by simp [busWrites])

/-- The method `InitializeLCD` never changes the stored address, sends only to it. -/
theorem InitializeLCD_addressed (hw : Header) (m : Machine) (h : Addressed m) :
    Addressed (InitializeLCD hw m) := by
  rw [InitializeLCD_eq]
  apply leftToRight_addressed
  apply clear_addressed
  apply display_addressed
  apply delayMicroseconds_addressed
  apply LCD_Write_addressed
  apply delayMicroseconds_addressed
  apply LCD_Write_addressed
  apply delayMicroseconds_addressed
  apply LCD_Write_addressed
  apply delayMicroseconds_addressed
  apply LCD_Write_addressed
  apply delayMicroseconds_addressed
  apply LCD_Write_addressed
  exact setOutput_addressed _ _ (setOutput_addressed _ _ h)

/-- The method `begin` never changes the stored address, sends only to it. -/
theorem begin_addressed (hw : Header) (beginWire : Bool) (m : Machine) (h : Addressed m) :
    Addressed (begin hw beginWire m) := by
  have h1 : Addressed (if beginWire then emit Event.Wire_begin m else m) := by
    cases beginWire
    · exact h
    · exact h.extend [Event.Wire_begin] rfl rfl (by simp [busWrites])
  have h2 : Addressed (I2C_Write 0 (if beginWire then emit Event.Wire_begin m else m)) :=
    h1.extend [Event.transmission _ 0] rfl rfl (by simp [busWrites])
  have h3 : Addressed (emit (Event.delay 50)
      (I2C_Write 0 (if beginWire then emit Event.Wire_begin m else m))) :=
    h2.extend [Event.delay 50] rfl rfl (by simp [busWrites])
  rw [begin_eq]
  exact InitializeLCD_addressed hw _ h3

/-- Running a history and then one more call. -/
theorem run_append_singleton (hw : Header) (ops : List Op) (op : Op) (m : Machine) :
    run hw (ops ++ [op]) m = op.exec hw (run hw ops m) := by
  induction ops generalizing m with
  | nil => rfl
  | cons first rest ih => exact ih (first.exec hw m)

/-- The last value set, after one more call. -/
theorem lastSet_append_singleton (f : Op → Option Bool) (init : Bool) (ops : List Op) (op : Op) :
    lastSet f init (ops ++ [op]) = (f op).getD (lastSet f init ops) := by
  induction ops generalizing init with
  | nil => rfl
  | cons first rest ih => exact ih ((f first).getD init)

/-- A Boolean observation of the driver that every call either sets as `f`
says or leaves alone holds, after a history, the last value set. -/
theorem run_lastSet (hw : Header) (f : Op → Option Bool) (obs : Machine → Bool)
    (hstep : ∀ op m, obs (Op.exec hw op m) = (f op).getD (obs m)) (ops : List Op) (m : Machine) :
    obs (run hw ops m) = lastSet f (obs m) ops := by
  induction ops generalizing m with
  | nil => rfl
  | cons first rest ih =>
    show obs (run hw rest (first.exec hw m)) = lastSet f ((f first).getD (obs m)) rest
    rw [ih, hstep]

/-- The display-control flags after one call. -/
theorem exec_displayState (hw : Header) (op : Op) (m : Machine) :
    (op.exec hw m).drv._displayState =
      match op with
      | Op.begin _ => m.drv._displayState ||| 4
      | Op.display => m.drv._displayState ||| 4
      | Op.noDisplay => m.drv._displayState &&& compl8 4
      | Op.cursor => m.drv._displayState ||| 2
      | Op.noCursor => m.drv._displayState &&& compl8 2
      | Op.blink => m.drv._displayState ||| 1
      | Op.noBlink => m.drv._displayState &&& compl8 1
      | _ => m.drv._displayState := by
  cases op <;>
    simp [Op.exec, begin_drv, clear_eq, home_eq, leftToRight_eq, rightToLeft_eq, display_eq,
      noDisplay_eq, cursor_eq, noCursor_eq, blink_eq, noBlink_eq, setCursor_eq, write_eq,
      sendByte_drv, withDisplayState, withEntryState, backlight, I2C_Write, emit, setOutput]

/-- The entry-mode flags after one call. -/
theorem exec_entryState (hw : Header) (op : Op) (m : Machine) :
    (op.exec hw m).drv._entryState =
      match op with
      | Op.begin _ => m.drv._entryState ||| 2
      | Op.leftToRight => m.drv._entryState ||| 2
      | Op.rightToLeft => m.drv._entryState &&& compl8 2
      | _ => m.drv._entryState := by
  cases op <;>
    simp [Op.exec, begin_drv, clear_eq, home_eq, leftToRight_eq, rightToLeft_eq, display_eq,
      noDisplay_eq, cursor_eq, noCursor_eq, blink_eq, noBlink_eq, setCursor_eq, write_eq,
      sendByte_drv, withDisplayState, withEntryState, backlight, I2C_Write, emit, setOutput]

/-- Bits 0 to 2 of the masks the toggles use. -/
theorem mask_bits :
    (Nat.testBit 4 2 = true ∧ Nat.testBit 4 1 = false ∧ Nat.testBit 4 0 = false) ∧
    (Nat.testBit 2 2 = false ∧ Nat.testBit 2 1 = true ∧ Nat.testBit 2 0 = false) ∧
    (Nat.testBit 1 2 = false ∧ Nat.testBit 1 1 = false ∧ Nat.testBit 1 0 = true) ∧
    (Nat.testBit 251 2 = false ∧ Nat.testBit 251 1 = true ∧ Nat.testBit 251 0 = true) ∧
    (Nat.testBit 253 2 = true ∧ Nat.testBit 253 1 = false ∧ Nat.testBit 253 0 = true) ∧
    (Nat.testBit 254 2 = true ∧ Nat.testBit 254 1 = true ∧ Nat.testBit 254 0 = false) ∧
    (Nat.testBit 8 2 = false ∧ Nat.testBit 8 1 = false ∧ Nat.testBit 8 0 = false) := by
  decide

/-- Bit 2 of the display-control flags is what `display`/`noDisplay` (and
`begin`) set it to; no other call touches it. -/
theorem exec_displayBit (hw : Header) (op : Op) (m : Machine) :
    (op.exec hw m).drv._displayState.testBit 2 =
      (op.setsDisplay).getD (m.drv._displayState.testBit 2) := by
  rw [exec_displayState]
  cases op <;> simp [Op.setsDisplay, compl8, mask_bits]

/-- Bit 1 of the display-control flags is what `cursor`/`noCursor` set it to;
no other call touches it. -/
theorem exec_cursorBit (hw : Header) (op : Op) (m : Machine) :
    (op.exec hw m).drv._displayState.testBit 1 =
      (op.setsCursor).getD (m.drv._displayState.testBit 1) := by
  rw [exec_displayState]
  cases op <;> simp [Op.setsCursor, compl8, mask_bits]

/-- Bit 0 of the display-control flags is what `blink`/`noBlink` set it to; no
other call touches it. -/
theorem exec_blinkBit (hw : Header) (op : Op) (m : Machine) :
    (op.exec hw m).drv._displayState.testBit 0 =
      (op.setsBlink).getD (m.drv._displayState.testBit 0) := by
  rw [exec_displayState]
  cases op <;> simp [Op.setsBlink, compl8, mask_bits]

/-- Bit 1 of the entry-mode flags is what `leftToRight`/`rightToLeft` (and
`begin`) set it to; no other call touches it. -/
theorem exec_directionBit (hw : Header) (op : Op) (m : Machine) :
    (op.exec hw m).drv._entryState.testBit 1 =
      (op.setsDirection).getD (m.drv._entryState.testBit 1) := by
  rw [exec_entryState]
  cases op <;> simp [Op.setsDirection, compl8, mask_bits]

/-- One call keeps the display-control flags within bits 0 to 2. -/
theorem exec_displayState_lt (hw : Header) (op : Op) (m : Machine)
    (h : m.drv._displayState < 8) : (op.exec hw m).drv._displayState < 8 := by
  rw [exec_displayState]
  have hor : ∀ k : Nat, k < 2 ^ 3 → m.drv._displayState ||| k < 2 ^ 3 :=
    fun k hk => Nat.or_lt_two_pow h hk
  have hand : ∀ k : Nat, m.drv._displayState &&& k < 8 :=
    fun k => Nat.lt_of_le_of_lt Nat.and_le_left h
  cases op
  case begin => exact hor 4 (by decide)
  case display => exact hor 4 (by decide)
  case cursor => exact hor 2 (by decide)
  case blink => exact hor 1 (by decide)
  case noDisplay => exact hand _
  case noCursor => exact hand _
  case noBlink => exact hand _
  all_goals exact h

/-- One call keeps the entry-mode flags within bit 1. -/
theorem exec_entryState_bit1 (hw : Header) (op : Op) (m : Machine)
    (h : m.drv._entryState = 0 ∨ m.drv._entryState = 2) :
    (op.exec hw m).drv._entryState = 0 ∨ (op.exec hw m).drv._entryState = 2 := by
  rw [exec_entryState]
  cases op
  case begin => dsimp only; rcases h with h | h <;> rw [h] <;> decide
  case leftToRight => dsimp only; rcases h with h | h <;> rw [h] <;> decide
  case rightToLeft => dsimp only; rcases h with h | h <;> rw [h] <;> decide
  all_goals exact h

/-- A history keeps both flag bytes within their bits. -/
theorem run_flags_in_range (hw : Header) (ops : List Op) (m : Machine)
    (hd : m.drv._displayState < 8) (he : m.drv._entryState = 0 ∨ m.drv._entryState = 2) :
    (run hw ops m).drv._displayState < 8 ∧
    ((run hw ops m).drv._entryState = 0 ∨ (run hw ops m).drv._entryState = 2) := by
  induction ops generalizing m with
  | nil => exact ⟨hd, he⟩
  | cons first rest ih =>
    exact ih (first.exec hw m) (exec_displayState_lt hw first m hd)
      (exec_entryState_bit1 hw first m he)

/-- Nothing emitted. -/
theorem Emits.refl (Q : Nat × Nat → Prop) (m : Machine) : Emits Q m m :=
  ⟨[], by simp, by simp [busWrites]⟩

/-- Emissions compose. -/
theorem Emits.trans {Q : Nat × Nat → Prop} {m₁ m₂ m₃ : Machine}
    (h₁ : Emits Q m₁ m₂) (h₂ : Emits Q m₂ m₃) : Emits Q m₁ m₃ := by
  obtain ⟨ev₁, hl₁, hq₁⟩ := h₁
  obtain ⟨ev₂, hl₂, hq₂⟩ := h₂
  refine ⟨ev₁ ++ ev₂, by rw [hl₂, hl₁, List.append_assoc], ?_⟩
  intro p hp
  rw [busWrites_append, List.mem_append] at hp
  rcases hp with hp | hp
  · exact hq₁ p hp
  · exact hq₂ p hp

/-- Emissions may be described more loosely. -/
theorem Emits.mono {Q R : Nat × Nat → Prop} {m m' : Machine} (hQR : ∀ p, Q p → R p)
    (h : Emits Q m m') : Emits R m m' := by
  obtain ⟨ev, hl, hq⟩ := h
  exact ⟨ev, hl, fun p hp => hQR p (hq p hp)⟩

/-- Every bus transaction of `nibblePulses` goes to `a` and carries a packing
of a latch with the `rw` and `Led` of `o`. -/
theorem nibblePulses_packed (hw : Header) (a : Nat) (o : OutputState) (b : Nat) (half : Bool)
    (hrw : o.rw = 0) :
    ∀ p ∈ busWrites (nibblePulses hw a o b half), PackedFor hw a o.Led p := by
  intro p hp
  rw [busWrites_nibblePulses] at hp
  cases half <;> simp at hp
  · rcases hp with hp | hp | hp | hp <;> rw [hp]
    · exact ⟨rfl, { o with data := b, E := 1 }, hrw, rfl, Or.inl rfl⟩
    · exact ⟨rfl, { o with data := b, E := 0 }, hrw, rfl, Or.inl rfl⟩
    · exact ⟨rfl, { o with data := b, E := 1 }, hrw, rfl, Or.inr rfl⟩
    · exact ⟨rfl, { o with data := b, E := 0 }, hrw, rfl, Or.inr rfl⟩
  · rcases hp with hp | hp <;> rw [hp]
    · exact ⟨rfl, { o with data := b, E := 1 }, hrw, rfl, Or.inl rfl⟩
    · exact ⟨rfl, { o with data := b, E := 0 }, hrw, rfl, Or.inl rfl⟩

/-- What `sendByte` emits: packings of a latch with `rw` clear and the `Led`
it found, sent to the stored address. -/
theorem sendByte_emits (hw : Header) (r b us : Nat) (m : Machine) :
    Emits (PackedFor hw m.drv._address m.drv._output.Led) m (sendByte hw r b us m) := by
  refine ⟨_, by rw [sendByte_log, List.append_assoc], ?_⟩
  intro p hp
  rw [busWrites_append, List.mem_append] at hp
  rcases hp with hp | hp
  · exact nibblePulses_packed hw _ { m.drv._output with rs := r, rw := 0 } b false rfl p hp
  · simp [busWrites] at hp

/-- What `sendByte` emits, seen from a machine `m₀` with the same log, address
and `Led` as the one it starts from. -/
theorem sendByte_emits_from (hw : Header) (r b us : Nat) (m m₀ : Machine)
    (ha : m.drv._address = m₀.drv._address) (hl : m.drv._output.Led = m₀.drv._output.Led)
    (hlog : m.log = m₀.log) :
    Emits (PackedFor hw m₀.drv._address m₀.drv._output.Led) m₀ (sendByte hw r b us m) := by
  obtain ⟨ev, hev, hq⟩ := sendByte_emits hw r b us m
  rw [ha, hl] at hq
  exact ⟨ev, by rw [hev, hlog], hq⟩

/-- A controller operation emits packings of a latch with `rw` clear and the
`Led` it found, sent to the stored address. -/
theorem exec_command_emits (hw : Header) (c : CommandOp) (m : Machine) :
    Emits (PackedFor hw m.drv._address m.drv._output.Led) m (c.toOp.exec hw m) := by
  cases c
  case clear =>
    show Emits _ m (clear hw m)
    rw [clear_eq]; exact sendByte_emits hw _ _ _ m
  case home =>
    show Emits _ m (home hw m)
    rw [home_eq]; exact sendByte_emits hw _ _ _ m
  case leftToRight =>
    show Emits _ m (leftToRight hw m)
    rw [leftToRight_eq]; exact sendByte_emits_from hw _ _ _ _ m rfl rfl rfl
  case rightToLeft =>
    show Emits _ m (rightToLeft hw m)
    rw [rightToLeft_eq]; exact sendByte_emits_from hw _ _ _ _ m rfl rfl rfl
  case display =>
    show Emits _ m (display hw m)
    rw [display_eq]; exact sendByte_emits_from hw _ _ _ _ m rfl rfl rfl
  case noDisplay =>
    show Emits _ m (noDisplay hw m)
    rw [noDisplay_eq]; exact sendByte_emits_from hw _ _ _ _ m rfl rfl rfl
  case cursor =>
    show Emits _ m (cursor hw m)
    rw [cursor_eq]; exact sendByte_emits_from hw _ _ _ _ m rfl rfl rfl
  case noCursor =>
    show Emits _ m (noCursor hw m)
    rw [noCursor_eq]; exact sendByte_emits_from hw _ _ _ _ m rfl rfl rfl
  case blink =>
    show Emits _ m (blink hw m)
    rw [blink_eq]; exact sendByte_emits_from hw _ _ _ _ m rfl rfl rfl
  case noBlink =>
    show Emits _ m (noBlink hw m)
    rw [noBlink_eq]; exact sendByte_emits_from hw _ _ _ _ m rfl rfl rfl
  case setCursor row col =>
    show Emits _ m (setCursor hw row col m)
    rw [setCursor_eq]; exact sendByte_emits hw _ _ _ m
  case write character =>
    show Emits _ m (write hw character m).machine
    rw [write_eq]; exact sendByte_emits hw _ _ _ m

/-- A controller operation changes neither the stored address nor `Led`. -/
theorem exec_command_frame (hw : Header) (c : CommandOp) (m : Machine) :
    (c.toOp.exec hw m).drv._address = m.drv._address ∧
    (c.toOp.exec hw m).drv._output.Led = m.drv._output.Led := by
  cases c <;>
    simp [CommandOp.toOp, Op.exec, clear_eq, home_eq, leftToRight_eq, rightToLeft_eq, display_eq,
      noDisplay_eq, cursor_eq, noCursor_eq, blink_eq, noBlink_eq, setCursor_eq, write_eq,
      sendByte_drv, withDisplayState, withEntryState]

/-- A history of controller operations emits packings of a latch with `rw`
clear and the `Led` it started with, and leaves address and `Led` alone. -/
theorem run_command_emits (hw : Header) (ops : List CommandOp) (m : Machine) :
    Emits (PackedFor hw m.drv._address m.drv._output.Led) m
      (run hw (ops.map CommandOp.toOp) m) ∧
    (run hw (ops.map CommandOp.toOp) m).drv._address = m.drv._address ∧
    (run hw (ops.map CommandOp.toOp) m).drv._output.Led = m.drv._output.Led := by
  induction ops generalizing m with
  | nil => exact ⟨Emits.refl _ m, rfl, rfl⟩
  | cons c rest ih =>
    obtain ⟨ha, hl⟩ := exec_command_frame hw c m
    obtain ⟨h1, h2, h3⟩ := ih (c.toOp.exec hw m)
    rw [ha, hl] at h1
    exact ⟨(exec_command_emits hw c m).trans h1, h2.trans ha, h3.trans hl⟩

/-- A property of all bus transactions of two logs holds of their
concatenation. -/
theorem busWrites_forall_append {Q : Nat × Nat → Prop} {l₁ l₂ : List Event}
    (h₁ : ∀ p ∈ busWrites l₁, Q p) (h₂ : ∀ p ∈ busWrites l₂, Q p) :
    ∀ p ∈ busWrites (l₁ ++ l₂), Q p := by
  intro p hp
  rw [busWrites_append, List.mem_append] at hp
  rcases hp with hp | hp
  · exact h₁ p hp
  · exact h₂ p hp

/-- A packing of a latch with `rw` clear is a write-only byte. -/
theorem PackedFor.writeOnly {hw : Header} {a led : Nat} {p : Nat × Nat}
    (h : PackedFor hw a led p) : WriteOnly hw a p := by
  obtain ⟨ha, o, hrw, _, hb⟩ := h
  exact ⟨ha, Or.inr ⟨o, hrw, hb⟩⟩

/-- The raw bytes 0 and 8 have no bit set other than bit 3. -/
theorem raw_byte_bits (on_ : Bool) (i : Nat) (hi : i ≠ 3) :
    Nat.testBit (0 ||| ((if on_ then 1 else 0) <<< 3)) i = false := by
  cases on_
  · simp
  · show Nat.testBit (2 ^ 3) i = false
    rw [Nat.testBit_two_pow]
    simpa using fun h => hi h.symm

/-- No call changes the stored address. -/
theorem exec_address (hw : Header) (op : Op) (m : Machine) :
    (op.exec hw m).drv._address = m.drv._address := by
  cases op <;>
    simp [Op.exec, begin_drv, clear_eq, home_eq, leftToRight_eq, rightToLeft_eq, display_eq,
      noDisplay_eq, cursor_eq, noCursor_eq, blink_eq, noBlink_eq, setCursor_eq, write_eq,
      sendByte_drv, withDisplayState, withEntryState, backlight, I2C_Write, emit, setOutput]

/-- The whole log of `begin`. -/
theorem begin_log (hw : Header) (beginWire : Bool) (m : Machine) :
    (begin hw beginWire m).log = m.log ++
      ((if beginWire then [Event.Wire_begin] else []) ++
      ([Event.transmission m.drv._address 0, Event.delay 50] ++
      (nibblePulses hw m.drv._address { m.drv._output with rs := 0, rw := 0 } 0x30 true ++
      ([Event.delayMicroseconds 4200] ++
      (nibblePulses hw m.drv._address { m.drv._output with rs := 0, rw := 0 } 0x30 true ++
      ([Event.delayMicroseconds 150] ++
      (nibblePulses hw m.drv._address { m.drv._output with rs := 0, rw := 0 } 0x30 true ++
      ([Event.delayMicroseconds 37] ++
      (nibblePulses hw m.drv._address { m.drv._output with rs := 0, rw := 0 } 0x20 true ++
      ([Event.delayMicroseconds 37] ++
      (nibblePulses hw m.drv._address { m.drv._output with rs := 0, rw := 0 } 0x28 false ++
      ([Event.delayMicroseconds 37] ++
      (nibblePulses hw m.drv._address { m.drv._output with rs := 0, rw := 0 }
        (0x08 ||| (m.drv._displayState ||| 4)) false ++
      ([Event.delayMicroseconds 37] ++
      (nibblePulses hw m.drv._address { m.drv._output with rs := 0, rw := 0 } 0x01 false ++
      ([Event.delayMicroseconds 1600] ++
      (nibblePulses hw m.drv._address { m.drv._output with rs := 0, rw := 0 }
        (0x04 ||| (m.drv._entryState ||| 2)) false ++
      [Event.delayMicroseconds 37]))))))))))))))))) := by
  cases beginWire <;>
    simp [begin, InitializeLCD, display, clear, leftToRight, I2C_Write,
      LCD_Write_log, LCD_Write_drv, nibblePulses, emit, setOutput]

/-- Every bus transaction of `begin` is a write-only byte sent to the stored
address. -/
theorem begin_emits (hw : Header) (beginWire : Bool) (m : Machine) :
    Emits (WriteOnly hw m.drv._address) m (begin hw beginWire m) := by
  refine ⟨_, begin_log hw beginWire m, ?_⟩
  have hnp : ∀ (b : Nat) (half : Bool),
      ∀ p ∈ busWrites (nibblePulses hw m.drv._address
        { m.drv._output with rs := 0, rw := 0 } b half), WriteOnly hw m.drv._address p :=
    fun b half p hp => (nibblePulses_packed hw _ _ b half rfl p hp).writeOnly
  have hdelay : ∀ us : Nat,
      ∀ p ∈ busWrites [Event.delayMicroseconds us], WriteOnly hw m.drv._address p := by
    intro us p hp
    simp [busWrites] at hp
  have hwire : ∀ p ∈ busWrites (if beginWire then [Event.Wire_begin] else []),
      WriteOnly hw m.drv._address p := by
    intro p hp
    cases beginWire <;> simp [busWrites] at hp
  have hzero : ∀ p ∈ busWrites [Event.transmission m.drv._address 0, Event.delay 50],
      WriteOnly hw m.drv._address p := by
    intro p hp
    simp [busWrites] at hp
    rw [hp]
    exact ⟨rfl, Or.inl (fun i _ => Nat.zero_testBit i)⟩
  refine busWrites_forall_append hwire ?_
  refine busWrites_forall_append hzero ?_
  refine busWrites_forall_append (hnp _ _) (busWrites_forall_append (hdelay _) ?_)
  refine busWrites_forall_append (hnp _ _) (busWrites_forall_append (hdelay _) ?_)
  refine busWrites_forall_append (hnp _ _) (busWrites_forall_append (hdelay _) ?_)
  refine busWrites_forall_append (hnp _ _) (busWrites_forall_append (hdelay _) ?_)
  refine busWrites_forall_append (hnp _ _) (busWrites_forall_append (hdelay _) ?_)
  refine busWrites_forall_append (hnp _ _) (busWrites_forall_append (hdelay _) ?_)
  refine busWrites_forall_append (hnp _ _) (busWrites_forall_append (hdelay _) ?_)
  exact busWrites_forall_append (hnp _ _) (hdelay _)

/-- Every bus transaction of `backlight` is a write-only byte sent to the
stored address. -/
theorem backlight_emits (hw : Header) (on_ : Bool) (m : Machine) :
    Emits (WriteOnly hw m.drv._address) m (backlight on_ m) := by
  refine ⟨[Event.transmission m.drv._address (0 ||| ((if on_ then 1 else 0) <<< 3))], rfl, ?_⟩
  intro p hp
  simp only [busWrites, List.mem_singleton] at hp
  rw [hp]
  exact ⟨rfl, Or.inl (raw_byte_bits on_)⟩

/-- Every bus transaction of a public call is a write-only byte sent to the
stored address. -/
theorem exec_emits (hw : Header) (op : Op) (m : Machine) :
    Emits (WriteOnly hw m.drv._address) m (op.exec hw m) := by
  have hc : ∀ c : CommandOp, Emits (WriteOnly hw m.drv._address) m (c.toOp.exec hw m) :=
    fun c => (exec_command_emits hw c m).mono (fun _ h => h.writeOnly)
  cases op
  case begin beginWire => exact begin_emits hw beginWire m
  case backlight on_ => exact backlight_emits hw on_ m
  case clear => exact hc CommandOp.clear
  case home => exact hc CommandOp.home
  case leftToRight => exact hc CommandOp.leftToRight
  case rightToLeft => exact hc CommandOp.rightToLeft
  case display => exact hc CommandOp.display
  case noDisplay => exact hc CommandOp.noDisplay
  case cursor => exact hc CommandOp.cursor
  case noCursor => exact hc CommandOp.noCursor
  case blink => exact hc CommandOp.blink
  case noBlink => exact hc CommandOp.noBlink
  case setCursor row col => exact hc (CommandOp.setCursor row col)
  case write character => exact hc (CommandOp.write character)

/-- A history of public calls keeps the stored address and emits only
write-only bytes sent to it. -/
theorem run_emits (hw : Header) (ops : List Op) (m : Machine) :
    (run hw ops m).drv._address = m.drv._address ∧
    Emits (WriteOnly hw m.drv._address) m (run hw ops m) := by
  induction ops generalizing m with
  | nil => exact ⟨rfl, Emits.refl _ m⟩
  | cons first rest ih =>
    obtain ⟨h1, h2⟩ := ih (first.exec hw m)
    rw [exec_address] at h1 h2
    exact ⟨h1, (exec_emits hw first m).trans h2⟩

/-- The whole log of `InitializeLCD`. -/
theorem InitializeLCD_log (hw : Header) (m : Machine) :
    (InitializeLCD hw m).log = m.log ++
      (nibblePulses hw m.drv._address { m.drv._output with rs := 0, rw := 0 } 0x30 true ++
      ([Event.delayMicroseconds 4200] ++
      (nibblePulses hw m.drv._address { m.drv._output with rs := 0, rw := 0 } 0x30 true ++
      ([Event.delayMicroseconds 150] ++
      (nibblePulses hw m.drv._address { m.drv._output with rs := 0, rw := 0 } 0x30 true ++
      ([Event.delayMicroseconds 37] ++
      (nibblePulses hw m.drv._address { m.drv._output with rs := 0, rw := 0 } 0x20 true ++
      ([Event.delayMicroseconds 37] ++
      (nibblePulses hw m.drv._address { m.drv._output with rs := 0, rw := 0 } 0x28 false ++
      ([Event.delayMicroseconds 37] ++
      (nibblePulses hw m.drv._address { m.drv._output with rs := 0, rw := 0 }
        (0x08 ||| (m.drv._displayState ||| 4)) false ++
      ([Event.delayMicroseconds 37] ++
      (nibblePulses hw m.drv._address { m.drv._output with rs := 0, rw := 0 } 0x01 false ++
      ([Event.delayMicroseconds 1600] ++
      (nibblePulses hw m.drv._address { m.drv._output with rs := 0, rw := 0 }
        (0x04 ||| (m.drv._entryState ||| 2)) false ++
      [Event.delayMicroseconds 37]))))))))))))))) := by
  simp [InitializeLCD, display, clear, leftToRight, LCD_Write_log, LCD_Write_drv, nibblePulses,
    emit, setOutput]

/-- Every bus transaction of `nibblePulses` from a latch with `rs` clear goes
to `a` and carries a packing of a latch with `rs` clear and data field `b`. -/
theorem nibblePulses_command (hw : Header) (a : Nat) (o : OutputState) (b x : Nat) (half : Bool)
    (hrs : o.rs = 0) (hb : b ≠ x) :
    ∀ p ∈ busWrites (nibblePulses hw a o b half),
      p.1 = a ∧ ∃ o' : OutputState, o'.rs = 0 ∧ o'.data ≠ x ∧
        (p.2 = hw.GetHighData o' ∨ p.2 = hw.GetLowData o') := by
  intro p hp
  rw [busWrites_nibblePulses] at hp
  cases half <;> simp at hp
  · rcases hp with hp | hp | hp | hp <;> rw [hp]
    · exact ⟨rfl, { o with data := b, E := 1 }, hrs, hb, Or.inl rfl⟩
    · exact ⟨rfl, { o with data := b, E := 0 }, hrs, hb, Or.inl rfl⟩
    · exact ⟨rfl, { o with data := b, E := 1 }, hrs, hb, Or.inr rfl⟩
    · exact ⟨rfl, { o with data := b, E := 0 }, hrs, hb, Or.inr rfl⟩
  · rcases hp with hp | hp <;> rw [hp]
    · exact ⟨rfl, { o with data := b, E := 1 }, hrs, hb, Or.inl rfl⟩
    · exact ⟨rfl, { o with data := b, E := 0 }, hrs, hb, Or.inl rfl⟩

/-- A display-control command byte is not the character 0x41: bit 3 is set. -/
theorem display_command_ne_A (x : Nat) : 0x08 ||| x ≠ 0x41 := by
  intro h
  have h3 : Nat.testBit (0x08 ||| x) 3 = true := by
    rw [Nat.testBit_or]
    have : Nat.testBit 0x08 3 = true := by decide
    simp [this]
  rw [h] at h3
  exact absurd h3 (by decide)

/-- An entry-mode command byte is not the character 0x41: bit 2 is set. -/
theorem entry_command_ne_A (x : Nat) : 0x04 ||| x ≠ 0x41 := by
  intro h
  have h2 : Nat.testBit (0x04 ||| x) 2 = true := by
    rw [Nat.testBit_or]
    have : Nat.testBit 0x04 2 = true := by decide
    simp [this]
  rw [h] at h2
  exact absurd h2 (by decide)

/-- C1: from every state and for every byte `b`, `LCD_Write(b, false)` makes
exactly four bus writes, in this order: high nibble of `b` with `E` set, high
nibble with `E` clear, low nibble with `E` set, low nibble with `E` clear;
`LCD_Write(b, true)` makes exactly the first two.  A 1 microsecond delay
follows each write with `E` set, a 37 microsecond delay separates the two
nibbles, and `E` is clear in the latch when `LCD_Write` returns. -/
theorem LCD_Write_enable_pulses (hw : Header) (m : Machine) (b : Nat) :
    busWrites (LCD_Write hw b false m).log = busWrites m.log ++
      [(m.drv._address, hw.GetHighData { m.drv._output with data := b, E := 1 }),
       (m.drv._address, hw.GetHighData { m.drv._output with data := b, E := 0 }),
       (m.drv._address, hw.GetLowData { m.drv._output with data := b, E := 1 }),
       (m.drv._address, hw.GetLowData { m.drv._output with data := b, E := 0 })] ∧
    busWrites (LCD_Write hw b true m).log = busWrites m.log ++
      [(m.drv._address, hw.GetHighData { m.drv._output with data := b, E := 1 }),
       (m.drv._address, hw.GetHighData { m.drv._output with data := b, E := 0 })] ∧
    (LCD_Write hw b false m).log = m.log ++
      [Event.transmission m.drv._address (hw.GetHighData { m.drv._output with data := b, E := 1 }),
       Event.delayMicroseconds 1,
       Event.transmission m.drv._address (hw.GetHighData { m.drv._output with data := b, E := 0 }),
       Event.delayMicroseconds 37,
       Event.transmission m.drv._address (hw.GetLowData { m.drv._output with data := b, E := 1 }),
       Event.delayMicroseconds 1,
       Event.transmission m.drv._address (hw.GetLowData { m.drv._output with data := b, E := 0 })] ∧
    (LCD_Write hw b true m).log = m.log ++
      [Event.transmission m.drv._address (hw.GetHighData { m.drv._output with data := b, E := 1 }),
       Event.delayMicroseconds 1,
       Event.transmission m.drv._address (hw.GetHighData { m.drv._output with data := b, E := 0 })] ∧
    (LCD_Write hw b false m).drv._output.E = 0 ∧
    (LCD_Write hw b true m).drv._output.E = 0 := by
  refine ⟨?_, ?_, ?_, ?_, ?_, ?_⟩
  · simp [LCD_Write_log, busWrites_append, busWrites_nibblePulses]
  · simp [LCD_Write_log, busWrites_append, busWrites_nibblePulses]
  · simp [LCD_Write_log, nibblePulses]
  · simp [LCD_Write_log, nibblePulses]
  · simp [LCD_Write_drv]
  · simp [LCD_Write_drv]

/-- C6: from every state, `clear()` sends the command byte 0x01 and `home()`
the command byte 0x02, each as high nibble then low nibble, every bus byte
packed from a latch with `rs` (and `rw`) clear, and the last thing each does,
after its last bus write, is a delay of 1600 microseconds. -/
theorem clear_home_fixed_command (hw : Header) (m : Machine) :
    (clear hw m).log = m.log ++
      [Event.transmission m.drv._address (hw.GetHighData { rs := 0, rw := 0, E := 1, Led := m.drv._output.Led, data := 0x01 }),
       Event.delayMicroseconds 1,
       Event.transmission m.drv._address (hw.GetHighData { rs := 0, rw := 0, E := 0, Led := m.drv._output.Led, data := 0x01 }),
       Event.delayMicroseconds 37,
       Event.transmission m.drv._address (hw.GetLowData { rs := 0, rw := 0, E := 1, Led := m.drv._output.Led, data := 0x01 }),
       Event.delayMicroseconds 1,
       Event.transmission m.drv._address (hw.GetLowData { rs := 0, rw := 0, E := 0, Led := m.drv._output.Led, data := 0x01 })] ++
      [Event.delayMicroseconds 1600] ∧
    (home hw m).log = m.log ++
      [Event.transmission m.drv._address (hw.GetHighData { rs := 0, rw := 0, E := 1, Led := m.drv._output.Led, data := 0x02 }),
       Event.delayMicroseconds 1,
       Event.transmission m.drv._address (hw.GetHighData { rs := 0, rw := 0, E := 0, Led := m.drv._output.Led, data := 0x02 }),
       Event.delayMicroseconds 37,
       Event.transmission m.drv._address (hw.GetLowData { rs := 0, rw := 0, E := 1, Led := m.drv._output.Led, data := 0x02 }),
       Event.delayMicroseconds 1,
       Event.transmission m.drv._address (hw.GetLowData { rs := 0, rw := 0, E := 0, Led := m.drv._output.Led, data := 0x02 })] ++
      [Event.delayMicroseconds 1600] := by
  simp [clear, home, LCD_Write_log, nibblePulses, emit, setOutput]

/-- C7, a defect of the code: from every state and for every byte `c` the body
of `write(c)` sends `c` as high nibble then low nibble, every bus byte packed
from a latch with `rs` set and `rw` clear, delays 41 microseconds and up to
there leaves both flag bytes and `Led` alone; but the function, declared
`size_t`, then falls off its end, so that nothing is returned to the caller
and what follows is undefined.  On a freshly constructed driver at 0x27 with
`c = 0x41`: should control run on into the function the source places next,
`InitializeLCD`, the 8 events of the body are followed by 48 more and the flag
bytes become 4 and 2. -/
theorem write_falls_off_end :
    (∀ (hw : Header) (m : Machine) (c : Nat),
      write hw c m =
        Outcome.fellOffEnd
          { drv := { _address := m.drv._address,
                     _output := { rs := 1, rw := 0, E := 0, Led := m.drv._output.Led, data := c },
                     _displayState := m.drv._displayState,
                     _entryState := m.drv._entryState },
            log := m.log ++
              [Event.transmission m.drv._address
                 (hw.GetHighData { rs := 1, rw := 0, E := 1, Led := m.drv._output.Led, data := c }),
               Event.delayMicroseconds 1,
               Event.transmission m.drv._address
                 (hw.GetHighData { rs := 1, rw := 0, E := 0, Led := m.drv._output.Led, data := c }),
               Event.delayMicroseconds 37,
               Event.transmission m.drv._address
                 (hw.GetLowData { rs := 1, rw := 0, E := 1, Led := m.drv._output.Led, data := c }),
               Event.delayMicroseconds 1,
               Event.transmission m.drv._address
                 (hw.GetLowData { rs := 1, rw := 0, E := 0, Led := m.drv._output.Led, data := c }),
               Event.delayMicroseconds 41] } ∧
      (write hw c m).result = none) ∧
    (write specHeader 0x41 (construct 0x27)).machine.log.length = 8 ∧
    (InitializeLCD specHeader
      (write specHeader 0x41 (construct 0x27)).machine).log.length = 56 ∧
    (write specHeader 0x41 (construct 0x27)).machine.drv._displayState = 0 ∧
    (InitializeLCD specHeader
      (write specHeader 0x41 (construct 0x27)).machine).drv._displayState = 4 ∧
    (write specHeader 0x41 (construct 0x27)).machine.drv._entryState = 0 ∧
    (InitializeLCD specHeader
      (write specHeader 0x41 (construct 0x27)).machine).drv._entryState = 2 := by
  refine ⟨fun hw m c => ⟨?_, rfl⟩, ?_, ?_, ?_, ?_, ?_, ?_⟩
  · simp [write, LCD_Write, I2C_Write, emit, setOutput]
  all_goals decide

/-- C2: from every state (a freshly constructed driver included), `begin()`
appends to the log, in order: `Wire.begin()` when asked to; one all-zero byte
on the bus and a 50 ms delay; the five initialization writes, `LCD_Write` of
0x30, 0x30, 0x30 and 0x20 in half-byte mode and of 0x28 in full-byte mode, each
followed by its delay; then exactly the events of `display()`, `clear()`,
`leftToRight()` called in that order from the state the five writes leave.
Nothing else is appended. -/
theorem begin_transmits (hw : Header) (m : Machine) (beginWire : Bool) :
    (begin hw beginWire m).log = m.log ++
      (if beginWire then [Event.Wire_begin] else []) ++
      [Event.transmission m.drv._address 0,
       Event.delay 50,
       Event.transmission m.drv._address (hw.GetHighData { rs := 0, rw := 0, E := 1, Led := m.drv._output.Led, data := 0x30 }),
       Event.delayMicroseconds 1,
       Event.transmission m.drv._address (hw.GetHighData { rs := 0, rw := 0, E := 0, Led := m.drv._output.Led, data := 0x30 }),
       Event.delayMicroseconds 4200,
       Event.transmission m.drv._address (hw.GetHighData { rs := 0, rw := 0, E := 1, Led := m.drv._output.Led, data := 0x30 }),
       Event.delayMicroseconds 1,
       Event.transmission m.drv._address (hw.GetHighData { rs := 0, rw := 0, E := 0, Led := m.drv._output.Led, data := 0x30 }),
       Event.delayMicroseconds 150,
       Event.transmission m.drv._address (hw.GetHighData { rs := 0, rw := 0, E := 1, Led := m.drv._output.Led, data := 0x30 }),
       Event.delayMicroseconds 1,
       Event.transmission m.drv._address (hw.GetHighData { rs := 0, rw := 0, E := 0, Led := m.drv._output.Led, data := 0x30 }),
       Event.delayMicroseconds 37,
       Event.transmission m.drv._address (hw.GetHighData { rs := 0, rw := 0, E := 1, Led := m.drv._output.Led, data := 0x20 }),
       Event.delayMicroseconds 1,
       Event.transmission m.drv._address (hw.GetHighData { rs := 0, rw := 0, E := 0, Led := m.drv._output.Led, data := 0x20 }),
       Event.delayMicroseconds 37,
       Event.transmission m.drv._address (hw.GetHighData { rs := 0, rw := 0, E := 1, Led := m.drv._output.Led, data := 0x28 }),
       Event.delayMicroseconds 1,
       Event.transmission m.drv._address (hw.GetHighData { rs := 0, rw := 0, E := 0, Led := m.drv._output.Led, data := 0x28 }),
       Event.delayMicroseconds 37,
       Event.transmission m.drv._address (hw.GetLowData { rs := 0, rw := 0, E := 1, Led := m.drv._output.Led, data := 0x28 }),
       Event.delayMicroseconds 1,
       Event.transmission m.drv._address (hw.GetLowData { rs := 0, rw := 0, E := 0, Led := m.drv._output.Led, data := 0x28 }),
       Event.delayMicroseconds 37] ++
      (leftToRight hw (clear hw (display hw
        { drv := { m.drv with _output := { rs := 0, rw := 0, E := 0, Led := m.drv._output.Led, data := 0x28 } },
          log := [] }))).log := by
  cases beginWire <;>
    simp [begin, InitializeLCD, display, clear, leftToRight, I2C_Write,
      LCD_Write_log, LCD_Write_drv, nibblePulses, emit, setOutput]

/-- C3: from every state and for every 8-bit column `c`, `setCursor(0, c)`
hands `LCD_Write` the command byte `0x80 | c` and `setCursor(1, c)` the command
byte `0x80 | ((0x40 + c) mod 256)`, in full-byte mode and with `rs` (and `rw`)
clear in the latch. -/
theorem setCursor_command_byte (hw : Header) (m : Machine) (c : Nat) (hc : c < 256) :
    setCursor hw 0 c m =
      emit (Event.delayMicroseconds 37)
        (LCD_Write hw (0x80 ||| c) false
          (setOutput (fun o => { o with rs := 0, rw := 0 }) m)) ∧
    setCursor hw 1 c m =
      emit (Event.delayMicroseconds 37)
        (LCD_Write hw (0x80 ||| ((0x40 + c) % 256)) false
          (setOutput (fun o => { o with rs := 0, rw := 0 }) m)) ∧
    (setCursor hw 0 c m).log = m.log ++
      [Event.transmission m.drv._address (hw.GetHighData { rs := 0, rw := 0, E := 1, Led := m.drv._output.Led, data := 0x80 ||| c }),
       Event.delayMicroseconds 1,
       Event.transmission m.drv._address (hw.GetHighData { rs := 0, rw := 0, E := 0, Led := m.drv._output.Led, data := 0x80 ||| c }),
       Event.delayMicroseconds 37,
       Event.transmission m.drv._address (hw.GetLowData { rs := 0, rw := 0, E := 1, Led := m.drv._output.Led, data := 0x80 ||| c }),
       Event.delayMicroseconds 1,
       Event.transmission m.drv._address (hw.GetLowData { rs := 0, rw := 0, E := 0, Led := m.drv._output.Led, data := 0x80 ||| c })] ++
      [Event.delayMicroseconds 37] ∧
    (setCursor hw 1 c m).log = m.log ++
      [Event.transmission m.drv._address (hw.GetHighData { rs := 0, rw := 0, E := 1, Led := m.drv._output.Led, data := 0x80 ||| ((0x40 + c) % 256) }),
       Event.delayMicroseconds 1,
       Event.transmission m.drv._address (hw.GetHighData { rs := 0, rw := 0, E := 0, Led := m.drv._output.Led, data := 0x80 ||| ((0x40 + c) % 256) }),
       Event.delayMicroseconds 37,
       Event.transmission m.drv._address (hw.GetLowData { rs := 0, rw := 0, E := 1, Led := m.drv._output.Led, data := 0x80 ||| ((0x40 + c) % 256) }),
       Event.delayMicroseconds 1,
       Event.transmission m.drv._address (hw.GetLowData { rs := 0, rw := 0, E := 0, Led := m.drv._output.Led, data := 0x80 ||| ((0x40 + c) % 256) })] ++
      [Event.delayMicroseconds 37] := by
  have h0 : c % 256 = c := Nat.mod_eq_of_lt hc
  simp [setCursor, LCD_Write_log, nibblePulses, emit, setOutput, h0]

/-- Witness of C3 at column 5 on a freshly constructed driver at 0x27. -/
theorem setCursor_command_byte_witness :
    5 < 256 ∧
    setCursor specHeader 1 5 (construct 0x27) =
      emit (Event.delayMicroseconds 37)
        (LCD_Write specHeader (0x80 ||| ((0x40 + 5) % 256)) false
          (setOutput (fun o => { o with rs := 0, rw := 0 }) (construct 0x27))) :=
  ⟨by decide, (setCursor_command_byte specHeader (construct 0x27) 5 (by decide)).2.1⟩

/-- C5: on a driver at address 0x27, whatever its latch and flags hold, after
`begin(true)` the calls `setCursor(1, 5)` and `write('A')` have made, when
control reaches the end of the body of `write`, exactly eight further bus
writes: first the four of the command byte 0xC5 (high nibble, then low
nibble), each packed from a latch with `rs` clear, then the four of the data
byte 0x41, each packed from a latch with `rs` set; and every bus write up to
there goes to address 0x27.  Nothing rests on `write` returning, which it does
not: should control run on from there into `InitializeLCD`, the function the
source places next, every bus write this adds also goes to 0x27 and is packed
from a latch with `rs` clear and a data field other than 0x41. -/
theorem scenario_cursor_then_character (hw : Header) (o : OutputState) (ds es : Nat) :
    busWrites (write hw 0x41 (setCursor hw 1 5 (begin hw true
        { drv := { _address := 0x27, _output := o, _displayState := ds, _entryState := es },
          log := [] }))).machine.log =
      busWrites (begin hw true
        { drv := { _address := 0x27, _output := o, _displayState := ds, _entryState := es },
          log := [] }).log ++
      [(0x27, hw.GetHighData { rs := 0, rw := 0, E := 1, Led := o.Led, data := 0xC5 }),
       (0x27, hw.GetHighData { rs := 0, rw := 0, E := 0, Led := o.Led, data := 0xC5 }),
       (0x27, hw.GetLowData { rs := 0, rw := 0, E := 1, Led := o.Led, data := 0xC5 }),
       (0x27, hw.GetLowData { rs := 0, rw := 0, E := 0, Led := o.Led, data := 0xC5 }),
       (0x27, hw.GetHighData { rs := 1, rw := 0, E := 1, Led := o.Led, data := 0x41 }),
       (0x27, hw.GetHighData { rs := 1, rw := 0, E := 0, Led := o.Led, data := 0x41 }),
       (0x27, hw.GetLowData { rs := 1, rw := 0, E := 1, Led := o.Led, data := 0x41 }),
       (0x27, hw.GetLowData { rs := 1, rw := 0, E := 0, Led := o.Led, data := 0x41 })] ∧
    (∀ p ∈ busWrites (write hw 0x41 (setCursor hw 1 5 (begin hw true
        { drv := { _address := 0x27, _output := o, _displayState := ds, _entryState := es },
          log := [] }))).machine.log, p.1 = 0x27) ∧
    ∃ ev, (InitializeLCD hw (write hw 0x41 (setCursor hw 1 5 (begin hw true
        { drv := { _address := 0x27, _output := o, _displayState := ds, _entryState := es },
          log := [] }))).machine).log =
        (write hw 0x41 (setCursor hw 1 5 (begin hw true
        { drv := { _address := 0x27, _output := o, _displayState := ds, _entryState := es },
          log := [] }))).machine.log ++ ev ∧
      ∀ p ∈ busWrites ev, p.1 = 0x27 ∧
        ∃ o' : OutputState, o'.rs = 0 ∧ o'.data ≠ 0x41 ∧
          (p.2 = hw.GetHighData o' ∨ p.2 = hw.GetLowData o') := by
  have hcmd : (0x80 ||| (((if (1 : Nat) = 0 then 0x00 else 0x40) + 5) % 256)) = 0xC5 := by decide
  have h0 : Addressed
      { drv := { _address := 0x27, _output := o, _displayState := ds, _entryState := es },
        log := [] } := by
    intro q hq
    simp [busWrites] at hq
  have hB := begin_addressed hw true _ h0
  have ha : (begin hw true
      { drv := { _address := 0x27, _output := o, _displayState := ds, _entryState := es },
        log := [] }).drv._address = 0x27 := by rw [begin_drv]
  have hl : (begin hw true
      { drv := { _address := 0x27, _output := o, _displayState := ds, _entryState := es },
        log := [] }).drv._output.Led = o.Led := by rw [begin_drv]
  generalize begin hw true
      { drv := { _address := 0x27, _output := o, _displayState := ds, _entryState := es },
        log := [] } = B at hB ha hl ⊢
  have haW : (write hw 0x41 (setCursor hw 1 5 B)).machine.drv._address = 0x27 := by
    rw [write_eq, sendByte_drv, setCursor_eq, sendByte_drv]
    exact ha
  refine ⟨?_, ?_, ?_⟩
  · rw [write_eq, setCursor_eq, hcmd, sendByte_log, sendByte_log, sendByte_drv]
    simp [busWrites_append, busWrites_nibblePulses, busWrites, ha, hl]
  · intro p hp
    rw [write_addressed hw 0x41 _ (setCursor_addressed hw 1 5 _ hB) p hp]
    exact haW
  · generalize (write hw 0x41 (setCursor hw 1 5 B)).machine = W at haW ⊢
    refine ⟨_, InitializeLCD_log hw W, ?_⟩
    have hnp : ∀ (b : Nat) (half : Bool), b ≠ 0x41 →
        ∀ p ∈ busWrites (nibblePulses hw W.drv._address
          { W.drv._output with rs := 0, rw := 0 } b half),
          p.1 = 0x27 ∧ ∃ o' : OutputState, o'.rs = 0 ∧ o'.data ≠ 0x41 ∧
            (p.2 = hw.GetHighData o' ∨ p.2 = hw.GetLowData o') := by
      intro b half hb p hp
      obtain ⟨h1, h2⟩ := nibblePulses_command hw _ _ b 0x41 half rfl hb p hp
      exact ⟨h1.trans haW, h2⟩
    have hdelay : ∀ us : Nat, ∀ p ∈ busWrites [Event.delayMicroseconds us],
        p.1 = 0x27 ∧ ∃ o' : OutputState, o'.rs = 0 ∧ o'.data ≠ 0x41 ∧
          (p.2 = hw.GetHighData o' ∨ p.2 = hw.GetLowData o') := by
      intro us p hp
      simp [busWrites] at hp
    refine busWrites_forall_append (hnp _ _ (by decide)) (busWrites_forall_append (hdelay _) ?_)
    refine busWrites_forall_append (hnp _ _ (by decide)) (busWrites_forall_append (hdelay _) ?_)
    refine busWrites_forall_append (hnp _ _ (by decide)) (busWrites_forall_append (hdelay _) ?_)
    refine busWrites_forall_append (hnp _ _ (by decide)) (busWrites_forall_append (hdelay _) ?_)
    refine busWrites_forall_append (hnp _ _ (by decide)) (busWrites_forall_append (hdelay _) ?_)
    refine busWrites_forall_append (hnp _ _ (display_command_ne_A _))
      (busWrites_forall_append (hdelay _) ?_)
    refine busWrites_forall_append (hnp _ _ (by decide)) (busWrites_forall_append (hdelay _) ?_)
    exact busWrites_forall_append (hnp _ _ (entry_command_ne_A _)) (hdelay _)

/-- C8, as the code has it: from every state, `backlight(on)` sets the `Led`
bit of the latch to `on`, changes nothing else of the driver, and writes one
byte to the bus, 0x08 when `on` and 0x00 otherwise: the new backlight bit at
bit 3 and zeros elsewhere, whatever `rs`, `rw`, `E` and `data` hold. -/
theorem backlight_writes_led_bit_only (m : Machine) (on_ : Bool) :
    (backlight on_ m).drv =
      { m.drv with _output := { m.drv._output with Led := if on_ then 1 else 0 } } ∧
    (backlight on_ m).log =
      m.log ++ [Event.transmission m.drv._address (if on_ then 0x08 else 0x00)] := by
  cases on_ <;> simp [backlight, I2C_Write, emit, setOutput]

/-- C8 fails as stated: in the state `write('A')` leaves (`rs` set, `data`
0x41) `backlight(true)` writes the byte 0x08, the same byte it writes from a
latch of zeros.  That byte is not the latch packed with its `rs` and data bits
and the new backlight bit, which under the pin mapping of the spec is 0x94
with the high nibble and 0x91 with the low nibble. -/
theorem backlight_not_full_latch_byte :
    busWrites (backlight true afterWriteA).log = [(0x27, 0x08)] ∧
    busWrites (backlight true (construct 0x27)).log = [(0x27, 0x08)] ∧
    (backlight true afterWriteA).drv._output =
      { rs := 1, rw := 0, E := 0, Led := 1, data := 0x41 } ∧
    specHeader.GetHighData (backlight true afterWriteA).drv._output = 0x94 ∧
    specHeader.GetLowData (backlight true afterWriteA).drv._output = 0x91 ∧
    busWrites (backlight true afterWriteA).log ≠
      [(0x27, specHeader.GetHighData (backlight true afterWriteA).drv._output)] ∧
    busWrites (backlight true afterWriteA).log ≠
      [(0x27, specHeader.GetLowData (backlight true afterWriteA).drv._output)] := by
  decide

/-- C9, as the code has it: from every state, the byte `backlight(true)`
writes to the expander has bit 3 set, the byte `backlight(false)` writes has
bit 3 clear, and bit 7 is clear in both. -/
theorem backlight_line_is_bit_three (m : Machine) (on_ : Bool) :
    busWrites (backlight on_ m).log =
      busWrites m.log ++ [(m.drv._address, if on_ then 0x08 else 0x00)] ∧
    Nat.testBit (if on_ then 0x08 else 0x00) 3 = on_ ∧
    Nat.testBit (if on_ then 0x08 else 0x00) 7 = false := by
  refine ⟨?_, ?_, ?_⟩
  · cases on_ <;> simp [backlight, I2C_Write, emit, setOutput, busWrites_append, busWrites]
  · cases on_ <;> decide
  · cases on_ <;> decide

/-- C9 fails as stated: on a freshly constructed driver `backlight(true)`
writes the byte 0x08, whose bit 7 is clear. -/
theorem backlight_true_bit_seven_clear :
    busWrites (backlight true (construct 0x27)).log = [(0x27, 0x08)] ∧
    Nat.testBit 0x08 7 = false := by
  decide

/-- C10: from every state, for every byte and mode, `LCD_Write` changes only
the `data` field and the `E` bit of the latch (`rs`, `rw`, `Led`, both flag
bytes and the address are as before), and every bus byte it writes is packed
from a latch holding the `rs`, `rw` and `Led` the latch had on entry. -/
theorem LCD_Write_frame (hw : Header) (m : Machine) (b : Nat) (half : Bool) :
    (LCD_Write hw b half m).drv =
      { m.drv with _output := { m.drv._output with data := b, E := 0 } } ∧
    (LCD_Write hw b half m).drv._output.rs = m.drv._output.rs ∧
    (LCD_Write hw b half m).drv._output.rw = m.drv._output.rw ∧
    (LCD_Write hw b half m).drv._output.Led = m.drv._output.Led ∧
    (LCD_Write hw b half m).drv._displayState = m.drv._displayState ∧
    (LCD_Write hw b half m).drv._entryState = m.drv._entryState ∧
    (LCD_Write hw b half m).drv._address = m.drv._address ∧
    ∃ ev, (LCD_Write hw b half m).log = m.log ++ ev ∧
      ∀ p ∈ busWrites ev, ∃ e,
        p.2 = hw.GetHighData
          { rs := m.drv._output.rs, rw := m.drv._output.rw, E := e,
            Led := m.drv._output.Led, data := b } ∨
        p.2 = hw.GetLowData
          { rs := m.drv._output.rs, rw := m.drv._output.rw, E := e,
            Led := m.drv._output.Led, data := b } := by
  refine ⟨LCD_Write_drv hw b half m, by rw [LCD_Write_drv], by rw [LCD_Write_drv],
    by rw [LCD_Write_drv], by rw [LCD_Write_drv], by rw [LCD_Write_drv], by rw [LCD_Write_drv],
    nibblePulses hw m.drv._address m.drv._output b half, LCD_Write_log hw b half m, ?_⟩
  intro p hp
  cases half <;> simp [busWrites_nibblePulses] at hp
  · rcases hp with hp | hp | hp | hp
    · exact ⟨1, Or.inl (by rw [hp])⟩
    · exact ⟨0, Or.inl (by rw [hp])⟩
    · exact ⟨1, Or.inr (by rw [hp])⟩
    · exact ⟨0, Or.inr (by rw [hp])⟩
  · rcases hp with hp | hp
    · exact ⟨1, Or.inl (by rw [hp])⟩
    · exact ⟨0, Or.inl (by rw [hp])⟩

/-- C4: flag independence.  From every state `m` and after every history
`ops` of public calls: (1) each display-control call sends, in full-byte mode
with `rs` clear, the command byte `0x08 | _displayState`, whose bits 2, 1 and
0 are the values last set for the display, cursor and blink flag respectively
(the value of `m` when the history never set that flag), whatever was done to
the other flags; (2) each direction call sends the command byte
`0x04 | _entryState`, whose bit 1 is the value last set by a direction call,
here the call itself; (3) `backlight(on)` writes one byte whose backlight bit
(bit 3, where the source puts `Led`) is `on`, whatever the flags and the latch
hold.  `begin` counts as setting the display flag and the direction flag, for
it ends by calling `display()` and `leftToRight()`. -/
theorem flag_independence (hw : Header) (m : Machine) (ops : List Op) :
    (∀ t : DisplayToggle,
      (Op.exec hw t.toOp (run hw ops m)).log = (run hw ops m).log ++
        nibblePulses hw (run hw ops m).drv._address
          { (run hw ops m).drv._output with rs := 0, rw := 0 }
          (0x08 ||| (Op.exec hw t.toOp (run hw ops m)).drv._displayState) false ++
        [Event.delayMicroseconds 37] ∧
      Nat.testBit (0x08 ||| (Op.exec hw t.toOp (run hw ops m)).drv._displayState) 2 =
        lastSet Op.setsDisplay (m.drv._displayState.testBit 2) (ops ++ [t.toOp]) ∧
      Nat.testBit (0x08 ||| (Op.exec hw t.toOp (run hw ops m)).drv._displayState) 1 =
        lastSet Op.setsCursor (m.drv._displayState.testBit 1) (ops ++ [t.toOp]) ∧
      Nat.testBit (0x08 ||| (Op.exec hw t.toOp (run hw ops m)).drv._displayState) 0 =
        lastSet Op.setsBlink (m.drv._displayState.testBit 0) (ops ++ [t.toOp])) ∧
    (∀ ltr : Bool,
      (Op.exec hw (directionOp ltr) (run hw ops m)).log = (run hw ops m).log ++
        nibblePulses hw (run hw ops m).drv._address
          { (run hw ops m).drv._output with rs := 0, rw := 0 }
          (0x04 ||| (Op.exec hw (directionOp ltr) (run hw ops m)).drv._entryState) false ++
        [Event.delayMicroseconds 37] ∧
      Nat.testBit (0x04 ||| (Op.exec hw (directionOp ltr) (run hw ops m)).drv._entryState) 1 =
        lastSet Op.setsDirection (m.drv._entryState.testBit 1) (ops ++ [directionOp ltr]) ∧
      Nat.testBit (0x04 ||| (Op.exec hw (directionOp ltr) (run hw ops m)).drv._entryState) 1 =
        ltr) ∧
    (∀ on_ : Bool,
      (Op.exec hw (Op.backlight on_) (run hw ops m)).log =
        (run hw ops m).log ++
          [Event.transmission (run hw ops m).drv._address ((if on_ then 1 else 0) <<< 3)] ∧
      Nat.testBit ((if on_ then 1 else 0) <<< 3) 3 = on_) := by
  refine ⟨fun t => ⟨?_, ?_, ?_, ?_⟩, fun ltr => ⟨?_, ?_, ?_⟩, fun on_ => ⟨?_, ?_⟩⟩
  · cases t <;>
      simp [DisplayToggle.toOp, Op.exec, display_eq, noDisplay_eq, cursor_eq, noCursor_eq,
        blink_eq, noBlink_eq, sendByte_log, sendByte_drv, withDisplayState]
  · rw [Nat.testBit_or, ← run_append_singleton,
      run_lastSet hw Op.setsDisplay (fun x => x.drv._displayState.testBit 2)
        (exec_displayBit hw)]
    simp [mask_bits]
  · rw [Nat.testBit_or, ← run_append_singleton,
      run_lastSet hw Op.setsCursor (fun x => x.drv._displayState.testBit 1)
        (exec_cursorBit hw)]
    simp [mask_bits]
  · rw [Nat.testBit_or, ← run_append_singleton,
      run_lastSet hw Op.setsBlink (fun x => x.drv._displayState.testBit 0)
        (exec_blinkBit hw)]
    simp [mask_bits]
  · cases ltr <;>
      simp [directionOp, Op.exec, leftToRight_eq, rightToLeft_eq, sendByte_log, sendByte_drv,
        withEntryState]
  · rw [Nat.testBit_or, ← run_append_singleton,
      run_lastSet hw Op.setsDirection (fun x => x.drv._entryState.testBit 1)
        (exec_directionBit hw)]
    simp [mask_bits]
  · rw [Nat.testBit_or, exec_directionBit]
    cases ltr <;> simp [directionOp, Op.setsDirection, mask_bits]
  · cases on_ <;> simp [Op.exec, backlight, I2C_Write, emit, setOutput]
  · cases on_ <;> decide

/-- C15: `setCursor` validates nothing and its address wraps at 8 bits.  From
every state, for every row `r` other than 0 and every column `c`,
`setCursor(r, c)` does exactly what `setCursor(0, (c + 0x40) mod 256)` does, so
it transmits the same bus bytes; and for every row and column the byte handed
to `LCD_Write` is an 8-bit value with bit 7 set. -/
theorem setCursor_row_aliasing (hw : Header) (m : Machine) (r c : Nat) (hr : r ≠ 0) :
    setCursor hw r c m = setCursor hw 0 ((c + 0x40) % 256) m ∧
    busWrites (setCursor hw r c m).log =
      busWrites (setCursor hw 0 ((c + 0x40) % 256) m).log ∧
    ∀ row col : Nat, ∃ cmd : Nat,
      Nat.testBit cmd 7 = true ∧ cmd < 256 ∧
      setCursor hw row col m =
        emit (Event.delayMicroseconds 37)
          (LCD_Write hw cmd false (setOutput (fun o => { o with rs := 0, rw := 0 }) m)) := by
  have h : setCursor hw r c m = setCursor hw 0 ((c + 0x40) % 256) m := by
    rw [setCursor_eq, setCursor_eq]
    simp [hr, Nat.add_comm]
  refine ⟨h, by rw [h], fun row col => ?_⟩
  refine ⟨0x80 ||| (((if row = 0 then 0x00 else 0x40) + col) % 256), ?_, ?_, rfl⟩
  · rw [Nat.testBit_or]
    have h7 : Nat.testBit 0x80 7 = true := by decide
    simp [h7]
  · exact Nat.or_lt_two_pow (n := 8) (by decide) (Nat.mod_lt _ (by decide))

/-- Witness of C15 at row 3, column 200, where the sum wraps to 8. -/
theorem setCursor_row_aliasing_witness :
    3 ≠ 0 ∧
    setCursor specHeader 3 200 (construct 0x27) =
      setCursor specHeader 0 ((200 + 0x40) % 256) (construct 0x27) :=
  ⟨by decide, (setCursor_row_aliasing specHeader (construct 0x27) 3 200 (by decide)).1⟩

/-- C14: the log of `begin()`, from every state.  The delay between the
all-zero byte and the first initialization pulse is at least 40 ms; the delays
after the five initialization writes 0x30, 0x30, 0x30, 0x20 (half-byte mode)
and 0x28 (full-byte mode) are at least 4200, 150, 37, 37 and 37 microseconds;
each delay stands directly after the pulses of its command and directly before
the pulses of the next, and the pulses of a command begin and end with a bus
write. -/
theorem begin_delays (hw : Header) (m : Machine) (beginWire : Bool) :
    (∃ d0 d1 d2 d3 d4 d5 : Nat,
      40 ≤ d0 ∧ 4200 ≤ d1 ∧ 150 ≤ d2 ∧ 37 ≤ d3 ∧ 37 ≤ d4 ∧ 37 ≤ d5 ∧
      (begin hw beginWire m).log = m.log ++
        (if beginWire then [Event.Wire_begin] else []) ++
        [Event.transmission m.drv._address 0, Event.delay d0] ++
        nibblePulses hw m.drv._address { m.drv._output with rs := 0, rw := 0 } 0x30 true ++
        [Event.delayMicroseconds d1] ++
        nibblePulses hw m.drv._address { m.drv._output with rs := 0, rw := 0 } 0x30 true ++
        [Event.delayMicroseconds d2] ++
        nibblePulses hw m.drv._address { m.drv._output with rs := 0, rw := 0 } 0x30 true ++
        [Event.delayMicroseconds d3] ++
        nibblePulses hw m.drv._address { m.drv._output with rs := 0, rw := 0 } 0x20 true ++
        [Event.delayMicroseconds d4] ++
        nibblePulses hw m.drv._address { m.drv._output with rs := 0, rw := 0 } 0x28 false ++
        [Event.delayMicroseconds d5] ++
        nibblePulses hw m.drv._address { m.drv._output with rs := 0, rw := 0 }
          (0x08 ||| (m.drv._displayState ||| 4)) false ++
        [Event.delayMicroseconds 37] ++
        nibblePulses hw m.drv._address { m.drv._output with rs := 0, rw := 0 } 0x01 false ++
        [Event.delayMicroseconds 1600] ++
        nibblePulses hw m.drv._address { m.drv._output with rs := 0, rw := 0 }
          (0x04 ||| (m.drv._entryState ||| 2)) false ++
        [Event.delayMicroseconds 37]) ∧
    ∀ (a : Nat) (o : OutputState) (b : Nat) (half : Bool), ∃ first last : Nat,
      (nibblePulses hw a o b half).head? = some (Event.transmission a first) ∧
      (nibblePulses hw a o b half).getLast? = some (Event.transmission a last) := by
  constructor
  · refine ⟨50, 4200, 150, 37, 37, 37, by decide, by decide, by decide, by decide, by decide,
      by decide, ?_⟩
    cases beginWire <;>
      simp [begin, InitializeLCD, display, clear, leftToRight, I2C_Write,
        LCD_Write_log, LCD_Write_drv, nibblePulses, emit, setOutput]
  · intro a o b half
    cases half
    · exact ⟨_, _, rfl, rfl⟩
    · exact ⟨_, _, rfl, rfl⟩

/-- C12: from a driver whose two flag bytes are zero, as a freshly constructed
one has them, after every history of public calls the entry-mode flags are 0
or 2 (only bit 1) and the display-control flags are below 8 (only bits 0 to
2).  Hence `leftToRight` sends exactly 0x06, `rightToLeft` exactly 0x04, and
each display-control call a command byte between 0x08 and 0x0F. -/
theorem flag_bytes_in_range (hw : Header) (m : Machine) (ops : List Op)
    (hd0 : m.drv._displayState = 0) (he0 : m.drv._entryState = 0) :
    ((run hw ops m).drv._entryState = 0 ∨ (run hw ops m).drv._entryState = 2) ∧
    (run hw ops m).drv._displayState < 8 ∧
    (leftToRight hw (run hw ops m)).log =
      (run hw ops m).log ++
        nibblePulses hw (run hw ops m).drv._address
          { (run hw ops m).drv._output with rs := 0, rw := 0 } 0x06 false ++
        [Event.delayMicroseconds 37] ∧
    (rightToLeft hw (run hw ops m)).log =
      (run hw ops m).log ++
        nibblePulses hw (run hw ops m).drv._address
          { (run hw ops m).drv._output with rs := 0, rw := 0 } 0x04 false ++
        [Event.delayMicroseconds 37] ∧
    ∀ t : DisplayToggle,
      (Op.exec hw t.toOp (run hw ops m)).log =
        (run hw ops m).log ++
          nibblePulses hw (run hw ops m).drv._address
            { (run hw ops m).drv._output with rs := 0, rw := 0 }
            (0x08 ||| (Op.exec hw t.toOp (run hw ops m)).drv._displayState) false ++
          [Event.delayMicroseconds 37] ∧
      0x08 ≤ 0x08 ||| (Op.exec hw t.toOp (run hw ops m)).drv._displayState ∧
      0x08 ||| (Op.exec hw t.toOp (run hw ops m)).drv._displayState ≤ 0x0F := by
  have hB := run_flags_in_range hw ops m (by rw [hd0]; decide) (Or.inl he0)
  generalize (run hw ops m) = B at hB ⊢
  obtain ⟨hd, he⟩ := hB
  have c1 : (0x04 ||| (0 ||| 2) : Nat) = 0x06 := by decide
  have c2 : (0x04 ||| (2 ||| 2) : Nat) = 0x06 := by decide
  have c3 : (0x04 ||| (0 &&& compl8 2) : Nat) = 0x04 := by decide
  have c4 : (0x04 ||| (2 &&& compl8 2) : Nat) = 0x04 := by decide
  refine ⟨he, hd, ?_, ?_, fun t => ⟨?_, ?_⟩⟩
  · rw [leftToRight_eq, sendByte_log]
    rcases he with h | h
    · rw [h, c1]; rfl
    · rw [h, c2]; rfl
  · rw [rightToLeft_eq, sendByte_log]
    rcases he with h | h
    · rw [h, c3]; rfl
    · rw [h, c4]; rfl
  · cases t <;>
      simp [DisplayToggle.toOp, Op.exec, display_eq, noDisplay_eq, cursor_eq, noCursor_eq,
        blink_eq, noBlink_eq, sendByte_log, sendByte_drv, withDisplayState]
  · have h8 := exec_displayState_lt hw t.toOp B hd
    generalize (Op.exec hw t.toOp B).drv._displayState = d at h8 ⊢
    interval_cases d <;> decide

/-- Witness of C12 on a freshly constructed driver at 0x27, after
`begin(true)`, `noDisplay()` and `rightToLeft()`. -/
theorem flag_bytes_in_range_witness :
    (construct 0x27).drv._displayState = 0 ∧ (construct 0x27).drv._entryState = 0 ∧
    (run specHeader [Op.begin true, Op.noDisplay, Op.rightToLeft]
      (construct 0x27)).drv._displayState < 8 :=
  ⟨rfl, rfl,
    (flag_bytes_in_range specHeader (construct 0x27)
      [Op.begin true, Op.noDisplay, Op.rightToLeft] rfl rfl).2.1⟩

/-- C11: from every state, `backlight(v)` changes nothing of the driver but
the `Led` bit of the latch, which it sets to `v`; and after it, for every
history of `clear`, `home`, `leftToRight`, `rightToLeft`, `display`,
`noDisplay`, `cursor`, `noCursor`, `blink`, `noBlink`, `setCursor` and `write`
calls, every bus byte those calls transmit is packed from a latch whose `Led`
is `v`, and `Led` is still `v` at the end. -/
theorem backlight_persists (hw : Header) (m : Machine) (v : Bool) (ops : List CommandOp) :
    (backlight v m).drv =
      { m.drv with _output := { m.drv._output with Led := if v then 1 else 0 } } ∧
    (run hw (ops.map CommandOp.toOp) (backlight v m)).drv._output.Led =
      (if v then 1 else 0) ∧
    ∃ ev, (run hw (ops.map CommandOp.toOp) (backlight v m)).log =
        (backlight v m).log ++ ev ∧
      ∀ p ∈ busWrites ev, ∃ o : OutputState,
        o.Led = (if v then 1 else 0) ∧
        (p.2 = hw.GetHighData o ∨ p.2 = hw.GetLowData o) := by
  have hdrv : (backlight v m).drv =
      { m.drv with _output := { m.drv._output with Led := if v then 1 else 0 } } := by
    simp [backlight, I2C_Write, emit, setOutput]
  have hled : (backlight v m).drv._output.Led = (if v then 1 else 0) := by rw [hdrv]
  obtain ⟨⟨ev, hlog, hq⟩, _, h3⟩ := run_command_emits hw ops (backlight v m)
  refine ⟨hdrv, h3.trans hled, ev, hlog, fun p hp => ?_⟩
  obtain ⟨_, o, _, ho, hb⟩ := hq p hp
  exact ⟨o, ho.trans hled, hb⟩

/-- C13: from every state (one with `rw` set in the latch included) and after
every history of public calls, the stored address is what it was, and every
bus transaction the calls made is a write to that address whose byte either is
packed from a latch with `rw` clear or is one of the raw bytes of `begin` and
`backlight`, which have no bit set other than bit 3, the backlight bit of the
source.  The source calls no read of `Wire`, so a transaction is a write. -/
theorem writes_only_to_fixed_address (hw : Header) (m : Machine) (ops : List Op) :
    (run hw ops m).drv._address = m.drv._address ∧
    ∃ ev, (run hw ops m).log = m.log ++ ev ∧
      ∀ p ∈ busWrites ev,
        p.1 = m.drv._address ∧
        ((∀ i : Nat, i ≠ 3 → Nat.testBit p.2 i = false) ∨
          ∃ o : OutputState, o.rw = 0 ∧ (p.2 = hw.GetHighData o ∨ p.2 = hw.GetLowData o)) :=
  run_emits hw ops m

end LCD_I2C
